import Mathlib

/-!
# ChSystemParallelNSC: contact-force recovery, force queries, material data and step orchestration

A shallow embedding of `src/chrono_parallel/physics/ChSystemParallelNSC.cpp`.

Modelling conventions.
* `real` (a floating-point type in the source) is the field of rationals: all
  arithmetic is exact.
* `uint` counts and indices are natural numbers and every `uint` expression of
  the source is taken modulo `2 ^ 32` (`uint`); the cast `(signed) n` is the
  two's-complement reading of the 32 bits (`toSigned`).  `int` indices (the
  loop counters, `index`, the body indices of a contact) are non-negative where
  they are read and are natural numbers.
* The force cache `Fc` and the Jacobian `D` are sized by the program from `uint`
  counts, so the length of `Fc` and the dimensions of `D` are below `2 ^ 32`;
  the data model carries these bounds.
* A Blaze `DynamicVector<real>` is a list of reals, a Blaze `CompressedMatrix<real>`
  is its row count, its column count and its entry function.  `blaze::submatrix`
  and `blaze::subvector` raise `std::invalid_argument` on a block that does not
  fit, as does a matrix/vector product with mismatched sizes.
* `assert(e)` is a check that yields `Fault.assertion_failed` when `e` is false.
  An unchecked `operator[]` read past the end of a buffer is `Fault.out_of_range`.
* Calls on collaborators whose code is elsewhere (timers, collision system,
  contact container, links, bodies, physics items, descriptor, solver) are
  recorded as a trace of `Call`s, in program order.
-/

namespace chrono

/-! ## Data model -/

/-- Scalar type of the solver buffers. -/
abbrev real := ℚ

/-- Blaze dense vector. -/
abbrev DynamicVector := List real

/-- Value of an expression of type `uint` (32-bit unsigned): reduction modulo `2 ^ 32`. -/
def uint (n : Nat) : Nat := n % 2 ^ 32

/-- Value of the cast `(signed) n` of a `uint`: the 32 bits read in two's complement,
negative from `2 ^ 31` on. -/
def toSigned (n : Nat) : Int :=
  if uint n < 2 ^ 31 then (uint n : Int) else (uint n : Int) - 2 ^ 32

/-- Blaze sparse matrix: dimensions and entries.  The matrices of the data
manager are sized from `uint` counts, so both dimensions are below `2 ^ 32`. -/
structure CompressedMatrix where
  rows : Nat
  columns : Nat
  entry : Nat → Nat → real
  rows_fit : rows < 2 ^ 32 := by decide
  columns_fit : columns < 2 ^ 32 := by decide

/-- Triple of reals (`real3`). -/
structure real3 where
  x : real
  y : real
  z : real
deriving DecidableEq

/-- Componentwise sum of two `real3`. -/
def real3.add (a b : real3) : real3 := ⟨a.x + b.x, a.y + b.y, a.z + b.z⟩

instance : Add real3 := ⟨real3.add⟩

/-- Pair of body indices of one contact (`vec2`). -/
structure vec2 where
  x : Nat
  y : Nat
deriving DecidableEq

/-- The `host_data` buffers read or written by the functions modelled here.
`Fc` is sized by `CalculateContactForces` only, from `uint` sizes, so its length
is below `2 ^ 32`. -/
structure host_container where
  Fc : DynamicVector
  Fc_fit : Fc.length < 2 ^ 32 := by decide
  D : CompressedMatrix
  gamma : DynamicVector
  bids_rigid_rigid : List vec2
  norm_rigid_rigid : List real3
  cpta_rigid_rigid : List real3
  cptb_rigid_rigid : List real3
  dpth_rigid_rigid : List real
  erad_rigid_rigid : List real
  pos_rigid : List real3
  sliding_friction : List real
  cohesion : List real

/-- The run settings read here. -/
structure settings_container where
  step_size : real

/-- The shared data manager. -/
structure ChParallelDataManager where
  num_rigid_bodies : Nat
  num_rigid_contacts : Nat
  num_unilaterals : Nat
  Fc_current : Bool
  settings : settings_container
  host_data : host_container

/-! ## Blaze operations used by the force recovery -/

/-- Checked view `blaze::submatrix(A, row, column, m, n)`; `none` stands for the
`std::invalid_argument` raised when the block does not fit in `A`. -/
def submatrix (A : CompressedMatrix) (row column m n : Nat) : Option CompressedMatrix :=
  if h : row + m ≤ A.rows ∧ column + n ≤ A.columns then
    some
      { rows := m
        columns := n
        entry := fun i j => A.entry (row + i) (column + j)
        rows_fit := Nat.lt_of_le_of_lt (Nat.le_trans (Nat.le_add_left m row) h.1) A.rows_fit
        columns_fit :=
          Nat.lt_of_le_of_lt (Nat.le_trans (Nat.le_add_left n column) h.2) A.columns_fit }
  else none

/-- Checked view `blaze::subvector(v, index, size)`; `none` stands for the
`std::invalid_argument` raised when the range does not fit in `v`. -/
def subvector (v : DynamicVector) (index size : Nat) : Option DynamicVector :=
  if index + size ≤ v.length then some ((v.drop index).take size) else none

/-- The entries of the matrix-vector product `A * v`, one per row of `A`; Blaze
forms it only when the column count of `A` is the size of `v`. -/
def rowProducts (A : CompressedMatrix) (v : DynamicVector) : DynamicVector :=
  (List.range A.rows).map fun r =>
    ((List.range A.columns).map fun c => A.entry r c * v.getD c 0).sum

/-- Division of a vector by a scalar, `v / s`. -/
def divScalar (v : DynamicVector) (s : real) : DynamicVector := v.map fun a => a / s

/-! ## Contact force recovery -/

/-- How a call of `CalculateContactForces` ends: normally, or by an exception
raised inside Blaze, with the data manager as it is at that point. -/
inductive Outcome where
  | done (dm : ChParallelDataManager)
  | thrown (dm : ChParallelDataManager)

/-- Embedding of `ChSystemParallelNSC::CalculateContactForces`.  The flag is set
first, before the branch on the contact count; the `LOG(INFO)` line of the
second branch writes to the log only and is left out.  Both products of
`num_rigid_bodies` by 6 are `uint` products.  The three ways the second branch
can raise are the two checked views and the size check of the product. -/
def CalculateContactForces (data_manager : ChParallelDataManager) : Outcome :=
  let num_unilaterals := data_manager.num_unilaterals
  let num_rigid_dof := uint (data_manager.num_rigid_bodies * 6)
  let num_contacts := data_manager.num_rigid_contacts
  let dm1 := { data_manager with Fc_current := true }
  if num_contacts = 0 then
    Outcome.done { dm1 with
      host_data := { dm1.host_data with
        Fc := List.replicate (uint (6 * dm1.num_rigid_bodies)) 0
        Fc_fit := by
          rw [List.length_replicate]
          exact Nat.mod_lt _ (by decide) } }
  else
    match submatrix dm1.host_data.D 0 0 num_rigid_dof num_unilaterals with
    | none => Outcome.thrown dm1
    | some D_u =>
      match subvector dm1.host_data.gamma 0 num_unilaterals with
      | none => Outcome.thrown dm1
      | some gamma_u =>
        if D_u.columns = gamma_u.length then
          Outcome.done { dm1 with
            host_data := { dm1.host_data with
              Fc := divScalar (rowProducts D_u gamma_u) dm1.settings.step_size
              Fc_fit := by
                rw [divScalar, List.length_map, rowProducts, List.length_map, List.length_range]
                exact D_u.rows_fit } }
        else Outcome.thrown dm1

/-! ## Force and torque queries -/

/-- Ways a query can go wrong. -/
inductive Fault where
  | assertion_failed
  | out_of_range
deriving DecidableEq

/-- Unchecked read `v[i]` of a buffer. -/
def readAt (v : DynamicVector) (i : Nat) : Except Fault real :=
  match v[i]? with
  | some a => Except.ok a
  | none => Except.error Fault.out_of_range

/-- Embedding of `ChSystemParallelNSC::GetBodyContactForce`: the value returned
and the data manager after the call.  The index `body_id * 6 + k` is a `uint`
expression. -/
def GetBodyContactForce (data_manager : ChParallelDataManager) (body_id : Nat) :
    Except Fault (real3 × ChParallelDataManager) :=
  if data_manager.Fc_current = false then Except.error Fault.assertion_failed
  else do
    let a ← readAt data_manager.host_data.Fc (uint (uint (body_id * 6) + 0))
    let b ← readAt data_manager.host_data.Fc (uint (uint (body_id * 6) + 1))
    let c ← readAt data_manager.host_data.Fc (uint (uint (body_id * 6) + 2))
    pure (⟨a, b, c⟩, data_manager)

/-- Embedding of `ChSystemParallelNSC::GetBodyContactTorque`: the value returned
and the data manager after the call.  The index `body_id * 6 + k` is a `uint`
expression. -/
def GetBodyContactTorque (data_manager : ChParallelDataManager) (body_id : Nat) :
    Except Fault (real3 × ChParallelDataManager) :=
  if data_manager.Fc_current = false then Except.error Fault.assertion_failed
  else do
    let a ← readAt data_manager.host_data.Fc (uint (uint (body_id * 6) + 3))
    let b ← readAt data_manager.host_data.Fc (uint (uint (body_id * 6) + 4))
    let c ← readAt data_manager.host_data.Fc (uint (uint (body_id * 6) + 5))
    pure (⟨a, b, c⟩, data_manager)

/-! ## Objects of the physical system -/

/-- Contact material of a collision shape (`ChMaterialSurfaceNSC`). -/
structure ChMaterialSurfaceNSC where
  Kfriction : real
  Cohesion : real
deriving DecidableEq

/-- One collision shape; only its material is read here. -/
structure ChCollisionShape where
  Material : ChMaterialSurfaceNSC
deriving DecidableEq

/-- Collision model of a body: its shapes, in order. -/
structure ChCollisionModel where
  shapes : List ChCollisionShape
deriving DecidableEq

/-- Rigid body: its identity and its collision model (a pointer that may be null). -/
structure ChBody where
  identifier : Nat
  CollisionModel : Option ChCollisionModel
deriving DecidableEq

/-- Joint ("link"), known by its identity. -/
structure ChLink where
  identifier : Nat
deriving DecidableEq

/-- Other physics item, known by its identity. -/
structure ChPhysicsItem where
  identifier : Nat
deriving DecidableEq

/-- Chrono vector (`ChVector<real>`). -/
structure ChVector where
  x : real
  y : real
  z : real
deriving DecidableEq

/-- Embedding of the static helper `ToChVector`. -/
def ToChVector (a : real3) : ChVector := ⟨a.x, a.y, a.z⟩

/-- The fields of `ChCollisionInfo` that `AssembleSystem` fills in. -/
structure ChCollisionInfo where
  modelA : Option ChCollisionModel
  modelB : Option ChCollisionModel
  vN : ChVector
  vpA : ChVector
  vpB : ChVector
  distance : real
  eff_radius : real
deriving DecidableEq

/-- The system: the lists of `ChSystem`, its step data and the data manager. -/
structure ChSystemParallelNSC where
  bodylist : List ChBody
  linklist : List ChLink
  otherphysicslist : List ChPhysicsItem
  step : real
  max_penetration_recovery_speed : real
  data_manager : ChParallelDataManager

/-! ## Material surface data -/

/-- Unchecked write `v[i] = a` into a buffer. -/
def writeAt (v : List real) (i : Nat) (a : real) : Except Fault (List real) :=
  if i < v.length then Except.ok (v.set i a) else Except.error Fault.out_of_range

/-- Embedding of `ChSystemParallelNSC::AddMaterialSurfaceData`: one more slot,
holding 0, at the end of each of the two material arrays. -/
def AddMaterialSurfaceData (data_manager : ChParallelDataManager) (_newbody : ChBody) :
    ChParallelDataManager :=
  { data_manager with
    host_data := { data_manager.host_data with
      sliding_friction := data_manager.host_data.sliding_friction ++ [0]
      cohesion := data_manager.host_data.cohesion ++ [0] } }

/-- Embedding of `ChSystemParallelNSC::UpdateMaterialSurfaceData`.  The guard is
`GetCollisionModel() && GetNumShapes() > 0`; `GetShape(0)` is the first shape. -/
def UpdateMaterialSurfaceData (data_manager : ChParallelDataManager) (index : Nat)
    (body : ChBody) : Except Fault ChParallelDataManager :=
  match body.CollisionModel with
  | none => Except.ok data_manager
  | some model =>
    if model.shapes.length > 0 then
      match model.shapes[0]? with
      | none => Except.error Fault.out_of_range
      | some shape => do
        let mat := shape.Material
        let friction ← writeAt data_manager.host_data.sliding_friction index mat.Kfriction
        let cohesion ← writeAt data_manager.host_data.cohesion index mat.Cohesion
        pure { data_manager with
          host_data := { data_manager.host_data with
            sliding_friction := friction
            cohesion := cohesion } }
    else Except.ok data_manager

/-! ## Call traces -/

/-- Names of the timers started and stopped by the step functions. -/
inductive TimerName where
  | step
  | update
  | collision
  | advance
deriving DecidableEq

/-- The object a call is made on. -/
inductive Receiver where
  | system
  | system_timer
  | collision_system
  | contact_container
  | solver
  | descriptor
  | body (b : ChBody)
  | link (l : ChLink)
  | item (p : ChPhysicsItem)
deriving DecidableEq

/-- The member function called, with its arguments.  `ReportContacts` always
receives the contact container, `InjectVariables` and `InjectConstraints`
always receive the system descriptor. -/
inductive Method where
  | Setup
  | Update
  | ChSystem_Update
  | Reset
  | start (t : TimerName)
  | stop (t : TimerName)
  | Run
  | ReportContacts
  | RunTimeStep
  | BeginAddContact
  | AddContact (icontact : ChCollisionInfo)
  | EndAddContact
  | ConstraintsBiReset
  | VariablesFbReset
  | ConstraintsBiLoad_C (factor recovery_clamp : real) (do_clamp : Bool)
  | ConstraintsBiLoad_Ct (factor : real)
  | VariablesQbLoadSpeed
  | VariablesFbIncrementMq
  | ConstraintsLoadJacobians
  | ConstraintsFbLoadForces (factor : real)
  | VariablesFbLoadForces (factor : real)
  | KRMmatricesLoad (Kfactor Rfactor Mfactor : real)
  | BeginInsertion
  | InjectVariables
  | InjectConstraints
  | EndInsertion
deriving DecidableEq

/-- One call: receiver and member function. -/
structure Call where
  receiver : Receiver
  method : Method
deriving DecidableEq

/-! ## Step orchestration -/

/-- Embedding of `ChSystemParallelNSC::SolveSystem`: the calls it makes, in order.
The body is straight-line code, so the trace is the same for every system. -/
def SolveSystem (_sys : ChSystemParallelNSC) : List Call :=
  [ ⟨Receiver.system_timer, Method.Reset⟩,
    ⟨Receiver.system_timer, Method.start TimerName.step⟩,
    ⟨Receiver.system, Method.Setup⟩,
    ⟨Receiver.system_timer, Method.start TimerName.update⟩,
    ⟨Receiver.system, Method.Update⟩,
    ⟨Receiver.system_timer, Method.stop TimerName.update⟩,
    ⟨Receiver.system_timer, Method.start TimerName.collision⟩,
    ⟨Receiver.collision_system, Method.Run⟩,
    ⟨Receiver.collision_system, Method.ReportContacts⟩,
    ⟨Receiver.system_timer, Method.stop TimerName.collision⟩,
    ⟨Receiver.system_timer, Method.start TimerName.advance⟩,
    ⟨Receiver.solver, Method.RunTimeStep⟩,
    ⟨Receiver.system_timer, Method.stop TimerName.advance⟩,
    ⟨Receiver.system_timer, Method.stop TimerName.step⟩ ]

/-- The contact record built by iteration `i` of the replay loop of
`AssembleSystem`; `none` when one of the unchecked reads is past the end of its
buffer (undefined behaviour in the source). -/
def icontact (sys : ChSystemParallelNSC) (i : Nat) : Option ChCollisionInfo := do
  let host_data := sys.data_manager.host_data
  let cd_pair ← host_data.bids_rigid_rigid[i]?
  let bodyA ← sys.bodylist[cd_pair.x]?
  let bodyB ← sys.bodylist[cd_pair.y]?
  let norm ← host_data.norm_rigid_rigid[i]?
  let cpta ← host_data.cpta_rigid_rigid[i]?
  let posA ← host_data.pos_rigid[cd_pair.x]?
  let cptb ← host_data.cptb_rigid_rigid[i]?
  let posB ← host_data.pos_rigid[cd_pair.y]?
  let dpth ← host_data.dpth_rigid_rigid[i]?
  let erad ← host_data.erad_rigid_rigid[i]?
  pure
    { modelA := bodyA.CollisionModel
      modelB := bodyB.CollisionModel
      vN := ToChVector norm
      vpA := ToChVector (cpta + posA)
      vpB := ToChVector (cptb + posB)
      distance := dpth
      eff_radius := erad }

/-- The replay loop of `AssembleSystem`: one `AddContact` per iteration, for the
`int i` from 0 while `i < (signed) num_rigid_contacts`; no iteration when the
cast is negative. -/
def replayContacts (sys : ChSystemParallelNSC) : Option (List Call) :=
  (List.range (toSigned sys.data_manager.num_rigid_contacts).toNat).mapM fun i =>
    (icontact sys i).map fun info => (⟨Receiver.contact_container, Method.AddContact info⟩ : Call)

/-- Body of the loop of `AssembleSystem` that loads the links. -/
def loadLink (sys : ChSystemParallelNSC) (link : ChLink) : List Call :=
  let F_factor := sys.step
  let Ct_factor : real := 1
  let C_factor := 1 / sys.step
  [ ⟨Receiver.link link,
      Method.ConstraintsBiLoad_C C_factor sys.max_penetration_recovery_speed true⟩,
    ⟨Receiver.link link, Method.ConstraintsBiLoad_Ct Ct_factor⟩,
    ⟨Receiver.link link, Method.VariablesQbLoadSpeed⟩,
    ⟨Receiver.link link, Method.VariablesFbIncrementMq⟩,
    ⟨Receiver.link link, Method.ConstraintsLoadJacobians⟩,
    ⟨Receiver.link link, Method.ConstraintsFbLoadForces F_factor⟩ ]

/-- Body of the loop of `AssembleSystem` that loads the bodies. -/
def loadBody (sys : ChSystemParallelNSC) (Bpointer : ChBody) : List Call :=
  let F_factor := sys.step
  [ ⟨Receiver.body Bpointer, Method.VariablesFbLoadForces F_factor⟩,
    ⟨Receiver.body Bpointer, Method.VariablesQbLoadSpeed⟩,
    ⟨Receiver.body Bpointer, Method.VariablesFbIncrementMq⟩ ]

/-- Body of the loop of `AssembleSystem` that loads the other physics items. -/
def loadItem (sys : ChSystemParallelNSC) (item : ChPhysicsItem) : List Call :=
  let F_factor := sys.step
  let K_factor := sys.step * sys.step
  let R_factor := sys.step
  let M_factor : real := 1
  let Ct_factor : real := 1
  let C_factor := 1 / sys.step
  [ ⟨Receiver.item item, Method.VariablesFbLoadForces F_factor⟩,
    ⟨Receiver.item item, Method.VariablesQbLoadSpeed⟩,
    ⟨Receiver.item item, Method.VariablesFbIncrementMq⟩,
    ⟨Receiver.item item,
      Method.ConstraintsBiLoad_C C_factor sys.max_penetration_recovery_speed true⟩,
    ⟨Receiver.item item, Method.ConstraintsBiLoad_Ct Ct_factor⟩,
    ⟨Receiver.item item, Method.ConstraintsLoadJacobians⟩,
    ⟨Receiver.item item, Method.KRMmatricesLoad K_factor R_factor M_factor⟩,
    ⟨Receiver.item item, Method.ConstraintsFbLoadForces F_factor⟩ ]

/-- The calls of `AssembleSystem` that follow `EndAddContact`: accumulator
resets, loads over links, bodies, other physics items and the contact
container, and the injection into the descriptor. -/
def assembleAfterContacts (sys : ChSystemParallelNSC) : List Call :=
  let F_factor := sys.step
  let C_factor := 1 / sys.step
  -- Reset sparse representation accumulators.
  sys.linklist.map (fun link => ⟨Receiver.link link, Method.ConstraintsBiReset⟩)
  ++ sys.bodylist.map (fun body => ⟨Receiver.body body, Method.VariablesFbReset⟩)
  ++ [⟨Receiver.contact_container, Method.ConstraintsBiReset⟩]
  -- Fill in the sparse system representation.
  ++ sys.linklist.flatMap (loadLink sys)
  ++ sys.bodylist.flatMap (loadBody sys)
  ++ sys.otherphysicslist.flatMap (loadItem sys)
  ++ [ ⟨Receiver.contact_container,
          Method.ConstraintsBiLoad_C C_factor sys.max_penetration_recovery_speed true⟩,
       ⟨Receiver.contact_container, Method.ConstraintsFbLoadForces F_factor⟩,
       ⟨Receiver.contact_container, Method.ConstraintsLoadJacobians⟩ ]
  -- Inject all variables and constraints into the system descriptor.
  ++ [⟨Receiver.descriptor, Method.BeginInsertion⟩]
  ++ sys.bodylist.map (fun body => ⟨Receiver.body body, Method.InjectVariables⟩)
  ++ sys.linklist.map (fun link => ⟨Receiver.link link, Method.InjectConstraints⟩)
  ++ [ ⟨Receiver.contact_container, Method.InjectConstraints⟩,
       ⟨Receiver.descriptor, Method.EndInsertion⟩ ]

/-- Embedding of `ChSystemParallelNSC::AssembleSystem`: the calls it makes, in
order.  The data manager of `sys` is the one the replay loop reads, that is, as
`Setup`, the collision run and `ChSystem::Update` leave it; these do not change
the body, link and item lists.  `none` when the replay loop reads past the end
of a buffer. -/
def AssembleSystem (sys : ChSystemParallelNSC) : Option (List Call) := do
  let added ← replayContacts sys
  pure
    ([ ⟨Receiver.system, Method.Setup⟩,
       ⟨Receiver.collision_system, Method.Run⟩,
       ⟨Receiver.collision_system, Method.ReportContacts⟩,
       ⟨Receiver.system, Method.ChSystem_Update⟩,
       ⟨Receiver.contact_container, Method.BeginAddContact⟩ ]
     ++ added
     ++ [⟨Receiver.contact_container, Method.EndAddContact⟩]
     ++ assembleAfterContacts sys)

/-! ## Observations on traces -/

/-- The contact arrays hold at least `num_rigid_contacts` entries each, and the
two body indices of each of these contacts are positions of the body list and
of `pos_rigid`. -/
def contactsInRange (sys : ChSystemParallelNSC) : Prop :=
  sys.data_manager.num_rigid_contacts ≤ sys.data_manager.host_data.bids_rigid_rigid.length ∧
  sys.data_manager.num_rigid_contacts ≤ sys.data_manager.host_data.norm_rigid_rigid.length ∧
  sys.data_manager.num_rigid_contacts ≤ sys.data_manager.host_data.cpta_rigid_rigid.length ∧
  sys.data_manager.num_rigid_contacts ≤ sys.data_manager.host_data.cptb_rigid_rigid.length ∧
  sys.data_manager.num_rigid_contacts ≤ sys.data_manager.host_data.dpth_rigid_rigid.length ∧
  sys.data_manager.num_rigid_contacts ≤ sys.data_manager.host_data.erad_rigid_rigid.length ∧
  ∀ cd_pair ∈ sys.data_manager.host_data.bids_rigid_rigid.take sys.data_manager.num_rigid_contacts,
    cd_pair.x < sys.bodylist.length ∧ cd_pair.y < sys.bodylist.length ∧
    cd_pair.x < sys.data_manager.host_data.pos_rigid.length ∧
    cd_pair.y < sys.data_manager.host_data.pos_rigid.length

instance (sys : ChSystemParallelNSC) : Decidable (contactsInRange sys) := by
  unfold contactsInRange
  infer_instance

/-- A call that hands something to the system descriptor: a call on the
descriptor itself, or an injection call, whose argument is the descriptor. -/
def onDescriptor (c : Call) : Bool :=
  decide (c.receiver = Receiver.descriptor) || decide (c.method = Method.InjectVariables)
    || decide (c.method = Method.InjectConstraints)

/-- The member functions called on receiver `r`, in order. -/
def callsOn (r : Receiver) (t : List Call) : List Method :=
  (t.filter fun c => decide (c.receiver = r)).map Call.method

/-- Start or stop of a timer: instrumentation, not a stage of the step. -/
def isTimerBracket (c : Call) : Bool :=
  match c.method with
  | Method.start _ => true
  | Method.stop _ => true
  | _ => false

/-- The stages of a step: its calls without the timer brackets. -/
def stages (t : List Call) : List Call := t.filter fun c => !isTimerBracket c

/-- Member functions of the contact-replay protocol of the contact container. -/
def isAddContactProtocol (m : Method) : Bool :=
  match m with
  | Method.BeginAddContact => true
  | Method.AddContact _ => true
  | Method.EndAddContact => true
  | _ => false

/-- The calls made while timer `name` runs: those after its `start` and before
the `stop` of the same timer that follows. -/
def timedBy (name : TimerName) (t : List Call) : List Call :=
  ((t.dropWhile fun c => !decide (c = ⟨Receiver.system_timer, Method.start name⟩)).drop 1).takeWhile
    fun c => !decide (c = ⟨Receiver.system_timer, Method.stop name⟩)

/-- Timer `name` is stopped after it was started: a `stop` of it follows its `start`. -/
def stoppedAfterStart (name : TimerName) (t : List Call) : Bool :=
  decide ((⟨Receiver.system_timer, Method.stop name⟩ : Call) ∈
    (t.dropWhile fun c => !decide (c = ⟨Receiver.system_timer, Method.start name⟩)).drop 1)

/-! ## Sample states -/

/-- Buffers with a 6 x 3 Jacobian of entries `r + c`, multipliers `[1, 2, 5]`,
and a stale force cache. -/
def sampleHost : host_container :=
  { Fc := [7, 8, 9]
    D := { rows := 6, columns := 3, entry := fun r c => (r : real) + (c : real) }
    gamma := [1, 2, 5]
    bids_rigid_rigid := [⟨0, 1⟩]
    norm_rigid_rigid := [⟨0, 0, 1⟩]
    cpta_rigid_rigid := [⟨0, 0, 1⟩]
    cptb_rigid_rigid := [⟨0, 0, -1⟩]
    dpth_rigid_rigid := [0]
    erad_rigid_rigid := [1 / 2]
    pos_rigid := [⟨0, 0, 0⟩, ⟨0, 0, 2⟩]
    sliding_friction := [0, 0]
    cohesion := [0, 0] }

/-- One body, one contact, two unilateral columns, step size 1/2, cache not current. -/
def sampleManager : ChParallelDataManager :=
  { num_rigid_bodies := 1
    num_rigid_contacts := 1
    num_unilaterals := 2
    Fc_current := false
    settings := ⟨1 / 2⟩
    host_data := sampleHost }

/-- A data manager whose cache of twelve entries is marked current. -/
def currentManager : ChParallelDataManager :=
  { num_rigid_bodies := 2
    num_rigid_contacts := 0
    num_unilaterals := 0
    Fc_current := true
    settings := ⟨1 / 2⟩
    host_data := { sampleHost with
      Fc := [10, 11, 12, 13, 14, 15, 20, 21, 22, 23, 24, 25]
      Fc_fit := by decide } }

/-- Two bodies, no contact, and a stale three-entry cache not marked current. -/
def staleManager : ChParallelDataManager :=
  { num_rigid_bodies := 2
    num_rigid_contacts := 0
    num_unilaterals := 0
    Fc_current := false
    settings := ⟨1 / 2⟩
    host_data := sampleHost }

/-- No contact and 715827883 bodies: the `uint` product `6 * 715827883` is
`4294967298 - 2 ^ 32 = 2`. -/
def wrapManager : ChParallelDataManager :=
  { num_rigid_bodies := 715827883
    num_rigid_contacts := 0
    num_unilaterals := 0
    Fc_current := false
    settings := ⟨1 / 2⟩
    host_data := sampleHost }

/-- Two bodies, two joints, one other physics item, one contact between the two
bodies, step 1/100. -/
def sampleSystem : ChSystemParallelNSC :=
  { bodylist := [⟨10, some ⟨[⟨⟨3 / 10, 0⟩⟩]⟩⟩, ⟨11, some ⟨[⟨⟨1 / 2, 0⟩⟩]⟩⟩]
    linklist := [⟨20⟩, ⟨21⟩]
    otherphysicslist := [⟨30⟩]
    step := 1 / 100
    max_penetration_recovery_speed := 6 / 10
    data_manager := sampleManager }

/-- The two bodies of `sampleSystem` with `2 ^ 31` contacts between them, every
contact array holding `2 ^ 31` entries; `(signed) 2147483648` is negative. -/
def manyContactsSystem : ChSystemParallelNSC :=
  { sampleSystem with
    data_manager :=
      { sampleManager with
        num_rigid_contacts := 2147483648
        host_data :=
          { sampleHost with
            bids_rigid_rigid := List.replicate 2147483648 ⟨0, 1⟩
            norm_rigid_rigid := List.replicate 2147483648 ⟨0, 0, 1⟩
            cpta_rigid_rigid := List.replicate 2147483648 ⟨0, 0, 1⟩
            cptb_rigid_rigid := List.replicate 2147483648 ⟨0, 0, -1⟩
            dpth_rigid_rigid := List.replicate 2147483648 0
            erad_rigid_rigid := List.replicate 2147483648 (1 / 2) } } }

/-! ## Auxiliary facts -/

/-- A `uint` expression below `2 ^ 32` has its mathematical value. -/
theorem uint_of_lt (n : Nat) (h : n < 2 ^ 32) : uint n = n := Nat.mod_eq_of_lt h

/-- A `uint` expression is at most its mathematical value. -/
theorem uint_le (n : Nat) : uint n ≤ n := Nat.mod_le n (2 ^ 32)

/-- The index `body_id * 6 + k` has its mathematical value when the six entries
of the body lie below `2 ^ 32`. -/
theorem uint_index (i k : Nat) (hk : k ≤ 5) (hi : 6 * i + 5 < 2 ^ 32) :
    uint (uint (i * 6) + k) = 6 * i + k := by
  rw [uint_of_lt (i * 6) (by omega), uint_of_lt (i * 6 + k) (by omega)]
  omega

/-- Below `2 ^ 31` the cast `(signed) n` keeps the value. -/
theorem toSigned_toNat_of_lt (n : Nat) (h : n < 2 ^ 31) : (toSigned n).toNat = n := by
  have hu : uint n = n := uint_of_lt n (by omega)
  unfold toSigned
  rw [hu, if_pos h]
  exact Int.toNat_ofNat n

/-- The loop bound `(signed) n` never exceeds `n`. -/
theorem toSigned_toNat_le (n : Nat) : (toSigned n).toNat ≤ n := by
  have hu := uint_le n
  have hlt : uint n < 2 ^ 32 := Nat.mod_lt _ (by decide)
  unfold toSigned
  split
  · simpa using hu
  · omega

/-- A sum over `List.range` is the corresponding finite sum. -/
theorem sum_map_range (f : Nat → real) (n : Nat) :
    ((List.range n).map f).sum = ∑ c ∈ Finset.range n, f c := by
  induction n with
  | zero => simp
  | succ k ih => simp [List.range_succ, Finset.sum_range_succ, ih]

/-- Reading a prefix of a vector below its cut reads the vector. -/
theorem getD_take (v : DynamicVector) (n c : Nat) (hc : c < n) :
    (v.take n).getD c 0 = v.getD c 0 := by
  simp [List.getD_eq_getElem?_getD, List.getElem?_take, hc]

/-- An in-range unchecked read returns the stored entry. -/
theorem readAt_of_lt (v : DynamicVector) (i : Nat) (h : i < v.length) :
    readAt v i = Except.ok (v.get ⟨i, h⟩) := by
  simp [readAt, List.getElem?_eq_getElem h]

/-- With a current cache and the six entries of body `i` in range, the force
query returns entries `6i .. 6i+2` and the unchanged data manager. -/
theorem force_of_current (dm : ChParallelDataManager) (i : Nat)
    (hcur : dm.Fc_current = true) (hi : 6 * i + 5 < dm.host_data.Fc.length) :
    GetBodyContactForce dm i =
        Except.ok (⟨dm.host_data.Fc.get ⟨6 * i, by omega⟩,
                    dm.host_data.Fc.get ⟨6 * i + 1, by omega⟩,
                    dm.host_data.Fc.get ⟨6 * i + 2, by omega⟩⟩, dm) := by
  have hfit := dm.host_data.Fc_fit
  have h32 : 6 * i + 5 < 2 ^ 32 := by omega
  simp only [GetBodyContactForce, hcur]
  rw [uint_index i 0 (by omega) h32, uint_index i 1 (by omega) h32,
    uint_index i 2 (by omega) h32,
    readAt_of_lt _ (6 * i + 0) (by omega), readAt_of_lt _ (6 * i + 1) (by omega),
    readAt_of_lt _ (6 * i + 2) (by omega)]
  rfl

/-- With a current cache and the six entries of body `i` in range, the torque
query returns entries `6i+3 .. 6i+5` and the unchanged data manager. -/
theorem torque_of_current (dm : ChParallelDataManager) (i : Nat)
    (hcur : dm.Fc_current = true) (hi : 6 * i + 5 < dm.host_data.Fc.length) :
    GetBodyContactTorque dm i =
        Except.ok (⟨dm.host_data.Fc.get ⟨6 * i + 3, by omega⟩,
                    dm.host_data.Fc.get ⟨6 * i + 4, by omega⟩,
                    dm.host_data.Fc.get ⟨6 * i + 5, by omega⟩⟩, dm) := by
  have hfit := dm.host_data.Fc_fit
  have h32 : 6 * i + 5 < 2 ^ 32 := by omega
  simp only [GetBodyContactTorque, hcur]
  rw [uint_index i 3 (by omega) h32, uint_index i 4 (by omega) h32,
    uint_index i 5 (by omega) h32,
    readAt_of_lt _ (6 * i + 3) (by omega), readAt_of_lt _ (6 * i + 4) (by omega),
    readAt_of_lt _ (6 * i + 5) (by omega)]
  rfl

/-! ## Filtering traces built from lists of objects -/

/-- No call of a block passes the filter when none of its objects produces one. -/
theorem filter_flatMap_none {α β : Type} (xs : List α) (f : α → List β) (p : β → Bool)
    (hp : ∀ x ∈ xs, ∀ c ∈ f x, p c = false) : (xs.flatMap f).filter p = [] := by
  rw [List.filter_eq_nil_iff]
  intro c hc
  obtain ⟨x, hx, hcx⟩ := List.mem_flatMap.mp hc
  simp [hp x hx c hcx]

/-- An object that is not in the list contributes no call. -/
theorem filter_flatMap_absent {α β : Type} [DecidableEq α] (xs : List α) (l : α)
    (f : α → List β) (p : β → Bool) (hp : ∀ x, ∀ c ∈ f x, p c = decide (x = l))
    (h0 : xs.count l = 0) : (xs.flatMap f).filter p = [] := by
  apply filter_flatMap_none
  intro x hx c hc
  rw [hp x c hc]
  have hne : x ≠ l := by
    rintro rfl
    exact (List.count_eq_zero.mp h0) hx
  simp [hne]

/-- An object held once in the list contributes exactly its own calls. -/
theorem filter_flatMap_unique {α β : Type} [DecidableEq α] (xs : List α) (l : α)
    (f : α → List β) (p : β → Bool) (hp : ∀ x, ∀ c ∈ f x, p c = decide (x = l))
    (h1 : xs.count l = 1) : (xs.flatMap f).filter p = f l := by
  induction xs with
  | nil => simp at h1
  | cons a xs ih =>
    rw [List.flatMap_cons, List.filter_append]
    by_cases ha : a = l
    · subst ha
      have h0 : xs.count a = 0 := by simpa [List.count_cons] using h1
      rw [filter_flatMap_absent xs a f p hp h0, List.append_nil, List.filter_eq_self]
      intro c hc
      simp [hp a c hc]
    · have h1' : xs.count l = 1 := by simpa [List.count_cons, ha] using h1
      rw [ih h1']
      have hnil : (f a).filter p = [] := by
        rw [List.filter_eq_nil_iff]
        intro c hc
        simp [hp a c hc, ha]
      rw [hnil, List.nil_append]

/-- The one-call-per-object form of `filter_flatMap_unique`. -/
theorem filter_map_unique {α β : Type} [DecidableEq α] (xs : List α) (l : α) (g : α → β)
    (p : β → Bool) (hp : ∀ x, p (g x) = decide (x = l)) (h1 : xs.count l = 1) :
    (xs.map g).filter p = [g l] := by
  rw [List.map_eq_flatMap]
  exact filter_flatMap_unique xs l (fun x => [g x]) p (by simpa using hp) h1

/-- The one-call-per-object form of `filter_flatMap_none`. -/
theorem filter_map_none {α β : Type} (xs : List α) (g : α → β) (p : β → Bool)
    (hp : ∀ x, p (g x) = false) : (xs.map g).filter p = [] := by
  rw [List.filter_eq_nil_iff]
  intro c hc
  obtain ⟨x, _, rfl⟩ := List.mem_map.mp hc
  simp [hp x]

/-- A loop over a list whose every iteration succeeds yields one result per element. -/
theorem mapM_some {α β : Type} (f : α → Option β) (l : List α)
    (h : ∀ a ∈ l, ∃ b, f a = some b) :
    ∃ bs, l.mapM f = some bs ∧ ∀ b ∈ bs, ∃ a ∈ l, f a = some b := by
  induction l with
  | nil => exact ⟨[], rfl, by simp⟩
  | cons a l ih =>
    obtain ⟨b, hb⟩ := h a (List.mem_cons_self a l)
    obtain ⟨bs, hbs, hmem⟩ := ih (fun x hx => h x (List.mem_cons_of_mem a hx))
    refine ⟨b :: bs, by rw [List.mapM_cons, hb, hbs]; rfl, ?_⟩
    intro c hc
    rcases List.mem_cons.mp hc with rfl | hc
    · exact ⟨a, List.mem_cons_self a l, hb⟩
    · obtain ⟨x, hx, hfx⟩ := hmem c hc
      exact ⟨x, List.mem_cons_of_mem a hx, hfx⟩

/-! ## The trace of `AssembleSystem` -/

/-- With the contact arrays in range, every iteration of the replay loop builds a record. -/
theorem icontact_some (sys : ChSystemParallelNSC) (hwf : contactsInRange sys) (i : Nat)
    (hi : i < sys.data_manager.num_rigid_contacts) : ∃ info, icontact sys i = some info := by
  obtain ⟨h1, h2, h3, h4, h5, h6, hb⟩ := hwf
  have hib : i < sys.data_manager.host_data.bids_rigid_rigid.length := by omega
  have hmem : sys.data_manager.host_data.bids_rigid_rigid[i] ∈
      sys.data_manager.host_data.bids_rigid_rigid.take sys.data_manager.num_rigid_contacts := by
    rw [List.mem_take_iff_getElem]
    exact ⟨i, by omega, rfl⟩
  obtain ⟨hx, hy, hpx, hpy⟩ := hb _ hmem
  simp [icontact, List.getElem?_eq_getElem, hib, hx, hy, hpx, hpy,
    show i < sys.data_manager.host_data.norm_rigid_rigid.length by omega,
    show i < sys.data_manager.host_data.cpta_rigid_rigid.length by omega,
    show i < sys.data_manager.host_data.cptb_rigid_rigid.length by omega,
    show i < sys.data_manager.host_data.dpth_rigid_rigid.length by omega,
    show i < sys.data_manager.host_data.erad_rigid_rigid.length by omega]

/-- With the contact arrays in range the replay loop completes, and all it does
is call `AddContact` on the contact container. -/
theorem replayContacts_some (sys : ChSystemParallelNSC) (hwf : contactsInRange sys) :
    ∃ added, replayContacts sys = some added ∧
      ∀ c ∈ added, ∃ info, c = ⟨Receiver.contact_container, Method.AddContact info⟩ := by
  obtain ⟨bs, hbs, hmem⟩ := mapM_some
    (fun i => (icontact sys i).map fun info =>
      (⟨Receiver.contact_container, Method.AddContact info⟩ : Call))
    (List.range (toSigned sys.data_manager.num_rigid_contacts).toNat)
    (by
      intro i hi
      have hle := toSigned_toNat_le sys.data_manager.num_rigid_contacts
      have hlt := List.mem_range.mp hi
      obtain ⟨info, hinfo⟩ := icontact_some sys hwf i (by omega)
      exact ⟨⟨Receiver.contact_container, Method.AddContact info⟩, by simp [hinfo]⟩)
  refine ⟨bs, hbs, ?_⟩
  intro c hc
  obtain ⟨i, _, hfi⟩ := hmem c hc
  cases hinfo : icontact sys i with
  | none => simp [hinfo] at hfi
  | some info =>
    refine ⟨info, ?_⟩
    simpa [hinfo] using hfi.symm

/-- The shape of the trace of `AssembleSystem` when the contact arrays are in range. -/
theorem AssembleSystem_trace (sys : ChSystemParallelNSC) (hwf : contactsInRange sys) :
    ∃ added, (∀ c ∈ added, ∃ info, c = ⟨Receiver.contact_container, Method.AddContact info⟩) ∧
      AssembleSystem sys = some
        ([ ⟨Receiver.system, Method.Setup⟩,
           ⟨Receiver.collision_system, Method.Run⟩,
           ⟨Receiver.collision_system, Method.ReportContacts⟩,
           ⟨Receiver.system, Method.ChSystem_Update⟩,
           ⟨Receiver.contact_container, Method.BeginAddContact⟩ ]
         ++ added
         ++ [⟨Receiver.contact_container, Method.EndAddContact⟩]
         ++ assembleAfterContacts sys) := by
  obtain ⟨added, hadd, hmem⟩ := replayContacts_some sys hwf
  exact ⟨added, hmem, by simp [AssembleSystem, hadd]⟩

/-- A block in which no object produces a call is empty. -/
theorem flatMap_no_calls {α β : Type} (xs : List α) : (xs.flatMap fun _ => ([] : List β)) = [] :=
  List.flatMap_eq_nil_iff.mpr fun _ _ => rfl

/-- What reaches the descriptor after the contact replay. -/
theorem onDescriptor_after (sys : ChSystemParallelNSC) :
    (assembleAfterContacts sys).filter onDescriptor =
      [⟨Receiver.descriptor, Method.BeginInsertion⟩]
      ++ sys.bodylist.map (fun body => ⟨Receiver.body body, Method.InjectVariables⟩)
      ++ sys.linklist.map (fun link => ⟨Receiver.link link, Method.InjectConstraints⟩)
      ++ [ ⟨Receiver.contact_container, Method.InjectConstraints⟩,
           ⟨Receiver.descriptor, Method.EndInsertion⟩ ] := by
  simp [assembleAfterContacts, List.filter_append, List.filter_map, List.filter_flatMap,
    onDescriptor, Function.comp_def, flatMap_no_calls, loadLink, loadBody, loadItem]

/-- What the contact container receives after the contact replay. -/
theorem callsOn_contact_after (sys : ChSystemParallelNSC) :
    callsOn Receiver.contact_container (assembleAfterContacts sys) =
      [ Method.ConstraintsBiReset,
        Method.ConstraintsBiLoad_C (1 / sys.step) sys.max_penetration_recovery_speed true,
        Method.ConstraintsFbLoadForces sys.step,
        Method.ConstraintsLoadJacobians,
        Method.InjectConstraints ] := by
  simp [assembleAfterContacts, callsOn, List.filter_append, List.filter_map, List.filter_flatMap,
    Function.comp_def, flatMap_no_calls, loadLink, loadBody, loadItem]

/-- What a link held once in the link list receives after the contact replay. -/
theorem callsOn_link_after (sys : ChSystemParallelNSC) (l : ChLink)
    (h1 : sys.linklist.count l = 1) :
    callsOn (Receiver.link l) (assembleAfterContacts sys) =
      [ Method.ConstraintsBiReset,
        Method.ConstraintsBiLoad_C (1 / sys.step) sys.max_penetration_recovery_speed true,
        Method.ConstraintsBiLoad_Ct 1,
        Method.VariablesQbLoadSpeed,
        Method.VariablesFbIncrementMq,
        Method.ConstraintsLoadJacobians,
        Method.ConstraintsFbLoadForces sys.step,
        Method.InjectConstraints ] := by
  simp only [assembleAfterContacts, callsOn, List.filter_append]
  rw [filter_map_unique sys.linklist l
        (fun link => (⟨Receiver.link link, Method.ConstraintsBiReset⟩ : Call)) _ (by simp) h1,
    filter_map_unique sys.linklist l
        (fun link => (⟨Receiver.link link, Method.InjectConstraints⟩ : Call)) _ (by simp) h1,
    filter_flatMap_unique sys.linklist l (loadLink sys) _
        (by intro x c hc; simp [loadLink] at hc; rcases hc with rfl | rfl | rfl | rfl | rfl | rfl <;> simp)
        h1,
    filter_map_none sys.bodylist
        (fun body => (⟨Receiver.body body, Method.VariablesFbReset⟩ : Call)) _ (by simp),
    filter_map_none sys.bodylist
        (fun body => (⟨Receiver.body body, Method.InjectVariables⟩ : Call)) _ (by simp),
    filter_flatMap_none sys.bodylist (loadBody sys) _
        (by intro x _ c hc; simp [loadBody] at hc; rcases hc with rfl | rfl | rfl <;> simp),
    filter_flatMap_none sys.otherphysicslist (loadItem sys) _
        (by
          intro x _ c hc
          simp [loadItem] at hc
          rcases hc with rfl | rfl | rfl | rfl | rfl | rfl | rfl | rfl <;> simp)]
  simp [loadLink]

/-- What an other physics item held once in its list receives after the contact replay. -/
theorem callsOn_item_after (sys : ChSystemParallelNSC) (p : ChPhysicsItem)
    (h1 : sys.otherphysicslist.count p = 1) :
    callsOn (Receiver.item p) (assembleAfterContacts sys) =
      [ Method.VariablesFbLoadForces sys.step,
        Method.VariablesQbLoadSpeed,
        Method.VariablesFbIncrementMq,
        Method.ConstraintsBiLoad_C (1 / sys.step) sys.max_penetration_recovery_speed true,
        Method.ConstraintsBiLoad_Ct 1,
        Method.ConstraintsLoadJacobians,
        Method.KRMmatricesLoad (sys.step * sys.step) sys.step 1,
        Method.ConstraintsFbLoadForces sys.step ] := by
  simp only [assembleAfterContacts, callsOn, List.filter_append]
  rw [filter_map_none sys.linklist
        (fun link => (⟨Receiver.link link, Method.ConstraintsBiReset⟩ : Call)) _ (by simp),
    filter_map_none sys.linklist
        (fun link => (⟨Receiver.link link, Method.InjectConstraints⟩ : Call)) _ (by simp),
    filter_flatMap_none sys.linklist (loadLink sys) _
        (by
          intro x _ c hc
          simp [loadLink] at hc
          rcases hc with rfl | rfl | rfl | rfl | rfl | rfl <;> simp),
    filter_map_none sys.bodylist
        (fun body => (⟨Receiver.body body, Method.VariablesFbReset⟩ : Call)) _ (by simp),
    filter_map_none sys.bodylist
        (fun body => (⟨Receiver.body body, Method.InjectVariables⟩ : Call)) _ (by simp),
    filter_flatMap_none sys.bodylist (loadBody sys) _
        (by intro x _ c hc; simp [loadBody] at hc; rcases hc with rfl | rfl | rfl <;> simp),
    filter_flatMap_unique sys.otherphysicslist p (loadItem sys) _
        (by
          intro x c hc
          simp [loadItem] at hc
          rcases hc with rfl | rfl | rfl | rfl | rfl | rfl | rfl | rfl <;> simp)
        h1]
  simp [loadItem]

/-- The calls before the end of the contact replay are on the system, the
collision system and the contact container only. -/
theorem callsOn_before (r : Receiver) (added : List Call)
    (hadd : ∀ c ∈ added, ∃ info, c = ⟨Receiver.contact_container, Method.AddContact info⟩)
    (h1 : r ≠ Receiver.system) (h2 : r ≠ Receiver.collision_system)
    (h3 : r ≠ Receiver.contact_container) :
    callsOn r
      ([ ⟨Receiver.system, Method.Setup⟩,
         ⟨Receiver.collision_system, Method.Run⟩,
         ⟨Receiver.collision_system, Method.ReportContacts⟩,
         ⟨Receiver.system, Method.ChSystem_Update⟩,
         ⟨Receiver.contact_container, Method.BeginAddContact⟩ ]
       ++ added
       ++ [⟨Receiver.contact_container, Method.EndAddContact⟩]) = [] := by
  have hnil : added.filter (fun c => decide (c.receiver = r)) = [] := by
    rw [List.filter_eq_nil_iff]
    intro c hc
    obtain ⟨info, rfl⟩ := hadd c hc
    simpa using Ne.symm h3
  simp [callsOn, List.filter_append, hnil, Ne.symm h1, Ne.symm h2, Ne.symm h3, List.filter_cons]

/-- The calls on one receiver of a trace made of two parts. -/
theorem callsOn_append (r : Receiver) (t u : List Call) :
    callsOn r (t ++ u) = callsOn r t ++ callsOn r u := by
  simp [callsOn, List.filter_append]

/-- Up to `EndAddContact` the contact container receives the replay protocol only. -/
theorem callsOn_contact_before (added : List Call)
    (hadd : ∀ c ∈ added, ∃ info, c = ⟨Receiver.contact_container, Method.AddContact info⟩) :
    ∀ m ∈ callsOn Receiver.contact_container
      ([ ⟨Receiver.system, Method.Setup⟩,
         ⟨Receiver.collision_system, Method.Run⟩,
         ⟨Receiver.collision_system, Method.ReportContacts⟩,
         ⟨Receiver.system, Method.ChSystem_Update⟩,
         ⟨Receiver.contact_container, Method.BeginAddContact⟩ ]
       ++ added
       ++ [⟨Receiver.contact_container, Method.EndAddContact⟩]), isAddContactProtocol m = true := by
  intro m hm
  simp only [callsOn, List.mem_map, List.mem_filter, List.mem_append, List.mem_cons,
    List.mem_singleton, List.not_mem_nil, or_false] at hm
  obtain ⟨c, ⟨hc, hr⟩, rfl⟩ := hm
  rcases hc with (hc | hc) | hc
  · rcases hc with rfl | rfl | rfl | rfl | rfl <;> first | rfl | simp at hr
  · obtain ⟨info, rfl⟩ := hadd c hc
    rfl
  · subst hc
    rfl

/-- What an observer of `AssembleSystem` sees: with the contact arrays in range
the function returns, and the calls on the descriptor, on a link, body or item,
and the calls on the contact container outside the replay protocol, are those
made after the contact replay. -/
theorem AssembleSystem_observed (sys : ChSystemParallelNSC) (hwf : contactsInRange sys) :
    ∃ t, AssembleSystem sys = some t ∧
      t.filter onDescriptor = (assembleAfterContacts sys).filter onDescriptor ∧
      (∀ r, r ≠ Receiver.system → r ≠ Receiver.collision_system →
        r ≠ Receiver.contact_container → callsOn r t = callsOn r (assembleAfterContacts sys)) ∧
      (callsOn Receiver.contact_container t).filter (fun m => !isAddContactProtocol m) =
        callsOn Receiver.contact_container (assembleAfterContacts sys) := by
  obtain ⟨added, hadd, ht⟩ := AssembleSystem_trace sys hwf
  refine ⟨_, ht, ?_, ?_, ?_⟩
  · have hnil : added.filter onDescriptor = [] := by
      rw [List.filter_eq_nil_iff]
      intro c hc
      obtain ⟨info, rfl⟩ := hadd c hc
      simp [onDescriptor]
    simp [List.filter_append, hnil, onDescriptor, List.filter_cons]
  · intro r h1 h2 h3
    rw [callsOn_append, callsOn_before r added hadd h1 h2 h3, List.nil_append]
  · rw [callsOn_append, List.filter_append]
    have hnil : (callsOn Receiver.contact_container
        ([ ⟨Receiver.system, Method.Setup⟩,
           ⟨Receiver.collision_system, Method.Run⟩,
           ⟨Receiver.collision_system, Method.ReportContacts⟩,
           ⟨Receiver.system, Method.ChSystem_Update⟩,
           ⟨Receiver.contact_container, Method.BeginAddContact⟩ ]
         ++ added
         ++ [⟨Receiver.contact_container, Method.EndAddContact⟩])).filter
          (fun m => !isAddContactProtocol m) = [] := by
      rw [List.filter_eq_nil_iff]
      intro m hm
      simp [callsOn_contact_before added hadd m hm]
    rw [hnil, List.nil_append, callsOn_contact_after]
    simp [isAddContactProtocol]

/-! ## The contact replay -/

/-- A completed loop has, position by position, the results of its iterations. -/
theorem mapM_map_some {α β : Type} (f : α → Option β) (l : List α) (bs : List β)
    (h : l.mapM f = some bs) : l.map f = bs.map some := by
  induction l generalizing bs with
  | nil =>
    rw [List.mapM_nil] at h
    cases h
    rfl
  | cons a l ih =>
    cases hfa : f a with
    | none =>
      rw [List.mapM_cons, hfa] at h
      cases h
    | some b =>
      cases hl : l.mapM f with
      | none =>
        rw [List.mapM_cons, hfa, hl] at h
        cases h
      | some bs' =>
        rw [List.mapM_cons, hfa, hl] at h
        cases h
        simp [hfa, ih bs' hl]

/-- The replay loop makes one call per iteration, and its `i`-th call adds the
record built by iteration `i`. -/
theorem replayContacts_getElem (sys : ChSystemParallelNSC) (added : List Call)
    (h : replayContacts sys = some added) :
    added.length = (toSigned sys.data_manager.num_rigid_contacts).toNat ∧
    ∀ i, i < (toSigned sys.data_manager.num_rigid_contacts).toNat →
      (icontact sys i).map (fun info =>
        (⟨Receiver.contact_container, Method.AddContact info⟩ : Call)) = added[i]? := by
  have hmap := mapM_map_some _ _ _ h
  have hlen : added.length = (toSigned sys.data_manager.num_rigid_contacts).toNat := by
    have := congrArg List.length hmap
    simpa using this.symm
  refine ⟨hlen, ?_⟩
  intro i hi
  have hget := congrArg (fun xs => xs[i]?) hmap
  simp only [List.getElem?_map, List.getElem?_range hi, Option.map_some'] at hget
  cases hadd : added[i]? with
  | none =>
    have hge := List.getElem?_eq_none_iff.mp hadd
    omega
  | some c =>
    rw [hadd] at hget
    simpa using hget

/-- With the contact arrays in range, iteration `i` of the replay loop reads the
entries of contact `i` and of its two bodies and builds the record from them. -/
theorem icontact_entries (sys : ChSystemParallelNSC) (hwf : contactsInRange sys) (i : Nat)
    (hi : i < sys.data_manager.num_rigid_contacts) :
    ∃ cd_pair bodyA bodyB norm cpta cptb posA posB dpth erad,
      sys.data_manager.host_data.bids_rigid_rigid[i]? = some cd_pair ∧
      sys.bodylist[cd_pair.x]? = some bodyA ∧
      sys.bodylist[cd_pair.y]? = some bodyB ∧
      sys.data_manager.host_data.norm_rigid_rigid[i]? = some norm ∧
      sys.data_manager.host_data.cpta_rigid_rigid[i]? = some cpta ∧
      sys.data_manager.host_data.cptb_rigid_rigid[i]? = some cptb ∧
      sys.data_manager.host_data.pos_rigid[cd_pair.x]? = some posA ∧
      sys.data_manager.host_data.pos_rigid[cd_pair.y]? = some posB ∧
      sys.data_manager.host_data.dpth_rigid_rigid[i]? = some dpth ∧
      sys.data_manager.host_data.erad_rigid_rigid[i]? = some erad ∧
      icontact sys i = some
        { modelA := bodyA.CollisionModel
          modelB := bodyB.CollisionModel
          vN := ⟨norm.x, norm.y, norm.z⟩
          vpA := ⟨cpta.x + posA.x, cpta.y + posA.y, cpta.z + posA.z⟩
          vpB := ⟨cptb.x + posB.x, cptb.y + posB.y, cptb.z + posB.z⟩
          distance := dpth
          eff_radius := erad } := by
  obtain ⟨h1, h2, h3, h4, h5, h6, hb⟩ := hwf
  have hib : i < sys.data_manager.host_data.bids_rigid_rigid.length := by omega
  have hmem : sys.data_manager.host_data.bids_rigid_rigid[i] ∈
      sys.data_manager.host_data.bids_rigid_rigid.take sys.data_manager.num_rigid_contacts := by
    rw [List.mem_take_iff_getElem]
    exact ⟨i, by omega, rfl⟩
  obtain ⟨hx, hy, hpx, hpy⟩ := hb _ hmem
  have e1 := List.getElem?_eq_getElem hib
  have e2 := List.getElem?_eq_getElem hx
  have e3 := List.getElem?_eq_getElem hy
  have e4 := List.getElem?_eq_getElem
    (show i < sys.data_manager.host_data.norm_rigid_rigid.length by omega)
  have e5 := List.getElem?_eq_getElem
    (show i < sys.data_manager.host_data.cpta_rigid_rigid.length by omega)
  have e6 := List.getElem?_eq_getElem
    (show i < sys.data_manager.host_data.cptb_rigid_rigid.length by omega)
  have e7 := List.getElem?_eq_getElem hpx
  have e8 := List.getElem?_eq_getElem hpy
  have e9 := List.getElem?_eq_getElem
    (show i < sys.data_manager.host_data.dpth_rigid_rigid.length by omega)
  have e10 := List.getElem?_eq_getElem
    (show i < sys.data_manager.host_data.erad_rigid_rigid.length by omega)
  refine ⟨_, _, _, _, _, _, _, _, _, _, e1, e2, e3, e4, e5, e6, e7, e8, e9, e10, ?_⟩
  simp only [icontact, e1, e2, e3, e4, e5, e6, e7, e8, e9, e10, Option.bind_eq_bind,
    Option.some_bind, Option.pure_def]
  rfl

/-- The calls of the replay protocol in a trace of `AssembleSystem`: the opening
call, the calls of the replay loop, the closing call, and none later. -/
theorem protocol_calls (sys : ChSystemParallelNSC) (added : List Call)
    (hadd : ∀ c ∈ added, ∃ info, c = ⟨Receiver.contact_container, Method.AddContact info⟩) :
    List.filter (fun c => isAddContactProtocol c.method)
      ([ ⟨Receiver.system, Method.Setup⟩,
         ⟨Receiver.collision_system, Method.Run⟩,
         ⟨Receiver.collision_system, Method.ReportContacts⟩,
         ⟨Receiver.system, Method.ChSystem_Update⟩,
         ⟨Receiver.contact_container, Method.BeginAddContact⟩ ]
       ++ added
       ++ [⟨Receiver.contact_container, Method.EndAddContact⟩]
       ++ assembleAfterContacts sys) =
      [⟨Receiver.contact_container, Method.BeginAddContact⟩] ++ added
        ++ [⟨Receiver.contact_container, Method.EndAddContact⟩] := by
  have hall : added.filter (fun c => isAddContactProtocol c.method) = added := by
    rw [List.filter_eq_self]
    intro c hc
    obtain ⟨info, rfl⟩ := hadd c hc
    rfl
  have hafter : (assembleAfterContacts sys).filter (fun c => isAddContactProtocol c.method) = [] := by
    simp [assembleAfterContacts, List.filter_append, List.filter_map, List.filter_flatMap,
      Function.comp_def, flatMap_no_calls, loadLink, loadBody, loadItem, isAddContactProtocol]
  rw [List.filter_append, List.filter_append, List.filter_append, hall, hafter]
  simp [List.filter_cons, isAddContactProtocol]

/-- Without contacts the recovery ends normally: the cache is marked current and
holds as many zeros as the `uint` product `6 * num_rigid_bodies` says; the rest
of the data manager is as before. -/
theorem recovery_no_contact (dm : ChParallelDataManager) (h0 : dm.num_rigid_contacts = 0) :
    ∃ dm', CalculateContactForces dm = Outcome.done dm' ∧ dm'.Fc_current = true ∧
      dm'.host_data.Fc = List.replicate (uint (6 * dm.num_rigid_bodies)) 0 ∧
      dm'.host_data.D = dm.host_data.D ∧ dm'.host_data.gamma = dm.host_data.gamma ∧
      dm'.settings = dm.settings ∧ dm'.num_rigid_bodies = dm.num_rigid_bodies ∧
      dm'.num_rigid_contacts = dm.num_rigid_contacts ∧
      dm'.num_unilaterals = dm.num_unilaterals := by
  unfold CalculateContactForces
  simp only [h0, if_true]
  exact ⟨_, rfl, rfl, rfl, rfl, rfl, rfl, rfl, rfl, rfl⟩

/-- With contacts and buffers large enough the recovery ends normally: the cache
is marked current and holds the product of the first `num_unilaterals` columns
of `D` with the first `num_unilaterals` multipliers, divided by the step size;
the rest of the data manager is as before. -/
theorem recovery_with_contacts (dm : ChParallelDataManager)
    (hne : dm.num_rigid_contacts ≠ 0)
    (hrows : 6 * dm.num_rigid_bodies ≤ dm.host_data.D.rows)
    (hcols : dm.num_unilaterals ≤ dm.host_data.D.columns)
    (hg : dm.num_unilaterals ≤ dm.host_data.gamma.length) :
    ∃ dm', CalculateContactForces dm = Outcome.done dm' ∧ dm'.Fc_current = true ∧
      dm'.host_data.Fc = divScalar
        ((List.range (6 * dm.num_rigid_bodies)).map fun r =>
          ((List.range dm.num_unilaterals).map fun c =>
            dm.host_data.D.entry r c * (dm.host_data.gamma.take dm.num_unilaterals).getD c 0).sum)
        dm.settings.step_size ∧
      dm'.host_data.D = dm.host_data.D ∧ dm'.host_data.gamma = dm.host_data.gamma ∧
      dm'.settings = dm.settings ∧ dm'.num_rigid_bodies = dm.num_rigid_bodies ∧
      dm'.num_rigid_contacts = dm.num_rigid_contacts ∧
      dm'.num_unilaterals = dm.num_unilaterals := by
  have hfit := dm.host_data.D.rows_fit
  have hu : uint (dm.num_rigid_bodies * 6) = 6 * dm.num_rigid_bodies := by
    rw [uint_of_lt _ (by omega)]
    omega
  have hsub : submatrix dm.host_data.D 0 0 (6 * dm.num_rigid_bodies) dm.num_unilaterals =
      some
        { rows := 6 * dm.num_rigid_bodies
          columns := dm.num_unilaterals
          entry := fun i j => dm.host_data.D.entry i j
          rows_fit := by omega
          columns_fit := Nat.lt_of_le_of_lt hcols dm.host_data.D.columns_fit } := by
    simp [submatrix, hrows, hcols]
  have hvec : subvector dm.host_data.gamma 0 dm.num_unilaterals =
      some (dm.host_data.gamma.take dm.num_unilaterals) := by
    simp [subvector, hg]
  have hlen : dm.num_unilaterals = (dm.host_data.gamma.take dm.num_unilaterals).length := by
    simp [List.length_take, hg]
  unfold CalculateContactForces
  simp only [hne, if_false, hu, hsub, hvec]
  rw [if_pos hlen]
  exact ⟨_, rfl, rfl, rfl, rfl, rfl, rfl, rfl, rfl, rfl⟩

/-! ## Contact force recovery: the zero-contact case and the product -/

/-- C1, the claim fails: with no contact and 715827883 bodies the recovery
leaves `Fc` with 2 entries, not with `6 * 715827883 = 4294967298`: the length
is the 32-bit `uint` product. -/
theorem CalculateContactForces_zero_contacts_counterexample :
    wrapManager.num_rigid_contacts = 0 ∧
    ∃ dm', CalculateContactForces wrapManager = Outcome.done dm' ∧
      dm'.host_data.Fc.length = 2 ∧
      dm'.host_data.Fc.length ≠ 6 * wrapManager.num_rigid_bodies := by
  refine ⟨rfl, ?_⟩
  obtain ⟨dm', hdone, _, hFc, _⟩ := recovery_no_contact wrapManager rfl
  have hlen : dm'.host_data.Fc.length = 2 := by
    rw [hFc, List.length_replicate]
    decide
  refine ⟨dm', hdone, hlen, ?_⟩
  rw [hlen]
  decide

/-- C1 as amended: when `num_rigid_contacts` is 0 and `6 * num_rigid_bodies` is
below `2 ^ 32`, whatever `Fc` and `Fc_current` were, `CalculateContactForces`
ends normally and leaves `Fc` with length exactly `6 * num_rigid_bodies`, every
entry 0, and `Fc_current` true (the counts, the settings, `D` and `gamma` are
unchanged). -/
theorem CalculateContactForces_zero_contacts (dm : ChParallelDataManager)
    (h : dm.num_rigid_contacts = 0) (hfit : 6 * dm.num_rigid_bodies < 2 ^ 32) :
    ∃ dm', CalculateContactForces dm = Outcome.done dm' ∧
      dm'.host_data.Fc.length = 6 * dm.num_rigid_bodies ∧
      (∀ a ∈ dm'.host_data.Fc, a = 0) ∧
      dm'.Fc_current = true ∧
      dm'.host_data.D = dm.host_data.D ∧ dm'.host_data.gamma = dm.host_data.gamma ∧
      dm'.settings = dm.settings ∧ dm'.num_rigid_bodies = dm.num_rigid_bodies ∧
      dm'.num_rigid_contacts = dm.num_rigid_contacts ∧
      dm'.num_unilaterals = dm.num_unilaterals := by
  obtain ⟨dm', hdone, hcur, hFc, hframe⟩ := recovery_no_contact dm h
  refine ⟨dm', hdone, ?_, ?_, hcur, hframe⟩
  · rw [hFc, List.length_replicate, uint_of_lt _ hfit]
  · intro a ha
    rw [hFc] at ha
    exact List.eq_of_mem_replicate ha

/-- Witness of C1 as amended: no contact, two bodies, a stale three-entry `Fc`
not marked current. -/
theorem CalculateContactForces_zero_contacts_witness :
    ∃ dm', CalculateContactForces staleManager = Outcome.done dm' ∧
      dm'.host_data.Fc.length = 6 * 2 ∧ (∀ a ∈ dm'.host_data.Fc, a = 0) ∧
      dm'.Fc_current = true := by
  obtain ⟨dm', h1, h2, h3, h4, _⟩ :=
    CalculateContactForces_zero_contacts staleManager rfl (by decide)
  exact ⟨dm', h1, h2, h3, h4⟩

/-- C2: with at least one contact, a nonzero step size, a Jacobian `D` of at
least `6 * num_rigid_bodies` rows and `num_unilaterals` columns and a `gamma` of
at least `num_unilaterals` entries, `CalculateContactForces` ends normally with
`Fc` of length `6 * num_rigid_bodies`, entry `r` equal to
`(∑ c < num_unilaterals, D r c * gamma c) / step_size`, and `Fc_current` true
(nothing else is changed). -/
theorem CalculateContactForces_product (dm : ChParallelDataManager)
    (hc : 0 < dm.num_rigid_contacts) (_hs : dm.settings.step_size ≠ 0)
    (hrows : 6 * dm.num_rigid_bodies ≤ dm.host_data.D.rows)
    (hcols : dm.num_unilaterals ≤ dm.host_data.D.columns)
    (hg : dm.num_unilaterals ≤ dm.host_data.gamma.length) :
    ∃ dm', CalculateContactForces dm = Outcome.done dm' ∧
      dm'.host_data.Fc.length = 6 * dm.num_rigid_bodies ∧
      (∀ r, r < 6 * dm.num_rigid_bodies →
        dm'.host_data.Fc[r]? =
          some ((∑ c ∈ Finset.range dm.num_unilaterals,
            dm.host_data.D.entry r c * dm.host_data.gamma.getD c 0) / dm.settings.step_size)) ∧
      dm'.Fc_current = true ∧
      dm'.host_data.D = dm.host_data.D ∧ dm'.host_data.gamma = dm.host_data.gamma ∧
      dm'.settings = dm.settings ∧ dm'.num_rigid_bodies = dm.num_rigid_bodies ∧
      dm'.num_rigid_contacts = dm.num_rigid_contacts ∧
      dm'.num_unilaterals = dm.num_unilaterals := by
  have hne : dm.num_rigid_contacts ≠ 0 := Nat.pos_iff_ne_zero.mp hc
  obtain ⟨dm', hdone, hcur, hFc, hframe⟩ := recovery_with_contacts dm hne hrows hcols hg
  refine ⟨dm', hdone, ?_, ?_, hcur, hframe⟩
  · rw [hFc]
    simp [divScalar]
  · intro r hr
    have hsum : ((List.range dm.num_unilaterals).map fun c =>
          dm.host_data.D.entry r c * (dm.host_data.gamma.take dm.num_unilaterals).getD c 0).sum
        = ∑ c ∈ Finset.range dm.num_unilaterals,
            dm.host_data.D.entry r c * dm.host_data.gamma.getD c 0 := by
      rw [sum_map_range]
      refine Finset.sum_congr rfl ?_
      intro c hcmem
      rw [getD_take _ _ _ (Finset.mem_range.mp hcmem)]
    rw [hFc]
    simp only [divScalar, List.getElem?_map, List.getElem?_range hr, Option.map_some', hsum]

/-- Witness of C2 on `sampleManager`: only the first two columns of `D` and the
first two multipliers are used, so entry 1 is `(1 * 1 + 2 * 2) / (1/2) = 10`. -/
theorem CalculateContactForces_product_witness :
    ∃ dm', CalculateContactForces sampleManager = Outcome.done dm' ∧
      dm'.host_data.Fc.length = 6 ∧ dm'.host_data.Fc[1]? = some 10 ∧ dm'.Fc_current = true := by
  obtain ⟨dm', h1, h2, h3, h4, _⟩ := CalculateContactForces_product sampleManager
    (by decide) (by norm_num [sampleManager]) (by simp [sampleManager, sampleHost])
    (by simp [sampleManager, sampleHost]) (by decide)
  refine ⟨dm', h1, h2, ?_, h4⟩
  rw [h3 1 (by decide)]
  norm_num [sampleManager, sampleHost, Finset.sum_range_succ]

/-! ## Force and torque queries -/

/-- C3: when `Fc_current` is true and `6 * i + 5 < length Fc`,
`GetBodyContactForce i` returns `(Fc[6i], Fc[6i+1], Fc[6i+2])`,
`GetBodyContactTorque i` returns `(Fc[6i+3], Fc[6i+4], Fc[6i+5])`, and both
leave the data manager as it was. -/
theorem GetBodyContact_reads (dm : ChParallelDataManager) (i : Nat)
    (hcur : dm.Fc_current = true) (hi : 6 * i + 5 < dm.host_data.Fc.length) :
    GetBodyContactForce dm i =
        Except.ok (⟨dm.host_data.Fc.get ⟨6 * i, by omega⟩,
                    dm.host_data.Fc.get ⟨6 * i + 1, by omega⟩,
                    dm.host_data.Fc.get ⟨6 * i + 2, by omega⟩⟩, dm) ∧
    GetBodyContactTorque dm i =
        Except.ok (⟨dm.host_data.Fc.get ⟨6 * i + 3, by omega⟩,
                    dm.host_data.Fc.get ⟨6 * i + 4, by omega⟩,
                    dm.host_data.Fc.get ⟨6 * i + 5, by omega⟩⟩, dm) :=
  ⟨force_of_current dm i hcur hi, torque_of_current dm i hcur hi⟩

/-- Witness of C3: body 1 of `currentManager` has force `(20, 21, 22)` and torque
`(23, 24, 25)`. -/
theorem GetBodyContact_reads_witness :
    GetBodyContactForce currentManager 1 = Except.ok (⟨20, 21, 22⟩, currentManager) ∧
    GetBodyContactTorque currentManager 1 = Except.ok (⟨23, 24, 25⟩, currentManager) :=
  GetBodyContact_reads currentManager 1 rfl (by decide)

/-- C4: a query made while `Fc_current` is false is detected.  For an index in
range (`6 * i + 5 < length Fc`) each of `GetBodyContactForce` and
`GetBodyContactTorque` fails if and only if `Fc_current` is false, and the
failure is then the assertion; for every index, in range or not, neither
returns a value while `Fc_current` is false. -/
theorem GetBodyContact_gated (dm : ChParallelDataManager) (i : Nat) :
    (6 * i + 5 < dm.host_data.Fc.length →
      ((∃ f, GetBodyContactForce dm i = Except.error f) ↔ dm.Fc_current = false) ∧
      ((∃ f, GetBodyContactTorque dm i = Except.error f) ↔ dm.Fc_current = false)) ∧
    (dm.Fc_current = false →
      GetBodyContactForce dm i = Except.error Fault.assertion_failed ∧
      GetBodyContactTorque dm i = Except.error Fault.assertion_failed ∧
      (∀ v, GetBodyContactForce dm i ≠ Except.ok v) ∧
      (∀ v, GetBodyContactTorque dm i ≠ Except.ok v)) := by
  have hfalse : dm.Fc_current = false →
      GetBodyContactForce dm i = Except.error Fault.assertion_failed ∧
      GetBodyContactTorque dm i = Except.error Fault.assertion_failed := by
    intro h
    simp [GetBodyContactForce, GetBodyContactTorque, h]
  refine ⟨fun hi => ?_, fun h => ?_⟩
  · cases hcur : dm.Fc_current with
    | false =>
      obtain ⟨h1, h2⟩ := hfalse hcur
      exact ⟨⟨fun _ => rfl, fun _ => ⟨_, h1⟩⟩, ⟨fun _ => rfl, fun _ => ⟨_, h2⟩⟩⟩
    | true =>
      have h1 := force_of_current dm i hcur hi
      have h2 := torque_of_current dm i hcur hi
      constructor
      · constructor
        · rintro ⟨f, hf⟩
          rw [h1] at hf
          cases hf
        · intro h
          cases h
      · constructor
        · rintro ⟨f, hf⟩
          rw [h2] at hf
          cases hf
        · intro h
          cases h
  · obtain ⟨h1, h2⟩ := hfalse h
    refine ⟨h1, h2, fun v hv => ?_, fun v hv => ?_⟩
    · rw [h1] at hv
      cases hv
    · rw [h2] at hv
      cases hv

/-- Witness of C4: with the cache not current, force and torque queries end in
the assertion, for an index in range or not. -/
theorem GetBodyContact_gated_witness :
    GetBodyContactForce sampleManager 0 = Except.error Fault.assertion_failed ∧
    GetBodyContactTorque sampleManager 7 = Except.error Fault.assertion_failed :=
  ⟨((GetBodyContact_gated sampleManager 0).2 rfl).1,
   ((GetBodyContact_gated sampleManager 7).2 rfl).2.1⟩

/-! ## Assembly of the system descriptor -/

/-- C5: the calls `AssembleSystem` makes on the system descriptor are exactly
`BeginInsertion`, `InjectVariables` for each body in body-list order,
`InjectConstraints` for each link in link-list order, `InjectConstraints` for
the contact container, `EndInsertion`; a second assembly with the same body and
link lists produces the same sequence. -/
theorem AssembleSystem_injection_order (sys sys' : ChSystemParallelNSC)
    (hwf : contactsInRange sys) (hwf' : contactsInRange sys')
    (hb : sys'.bodylist = sys.bodylist) (hl : sys'.linklist = sys.linklist) :
    ∃ t t', AssembleSystem sys = some t ∧ AssembleSystem sys' = some t' ∧
      t.filter onDescriptor =
        [⟨Receiver.descriptor, Method.BeginInsertion⟩]
        ++ sys.bodylist.map (fun body => ⟨Receiver.body body, Method.InjectVariables⟩)
        ++ sys.linklist.map (fun link => ⟨Receiver.link link, Method.InjectConstraints⟩)
        ++ [ ⟨Receiver.contact_container, Method.InjectConstraints⟩,
             ⟨Receiver.descriptor, Method.EndInsertion⟩ ] ∧
      t'.filter onDescriptor = t.filter onDescriptor := by
  obtain ⟨t, ht, hd, _⟩ := AssembleSystem_observed sys hwf
  obtain ⟨t', ht', hd', _⟩ := AssembleSystem_observed sys' hwf'
  refine ⟨t, t', ht, ht', ?_, ?_⟩
  · rw [hd, onDescriptor_after]
  · rw [hd, hd', onDescriptor_after, onDescriptor_after, hb, hl]

/-- Witness of C5 on `sampleSystem`, assembled twice, the second time with
another step. -/
theorem AssembleSystem_injection_order_witness :
    ∃ t t', AssembleSystem sampleSystem = some t ∧
      AssembleSystem { sampleSystem with step := 1 / 50 } = some t' ∧
      t.filter onDescriptor =
        [ ⟨Receiver.descriptor, Method.BeginInsertion⟩,
          ⟨Receiver.body ⟨10, some ⟨[⟨⟨3 / 10, 0⟩⟩]⟩⟩, Method.InjectVariables⟩,
          ⟨Receiver.body ⟨11, some ⟨[⟨⟨1 / 2, 0⟩⟩]⟩⟩, Method.InjectVariables⟩,
          ⟨Receiver.link ⟨20⟩, Method.InjectConstraints⟩,
          ⟨Receiver.link ⟨21⟩, Method.InjectConstraints⟩,
          ⟨Receiver.contact_container, Method.InjectConstraints⟩,
          ⟨Receiver.descriptor, Method.EndInsertion⟩ ] ∧
      t'.filter onDescriptor = t.filter onDescriptor :=
  AssembleSystem_injection_order sampleSystem { sampleSystem with step := 1 / 50 }
    (by decide) (by decide) rfl rfl

/-- C6: for a positive step and a joint held (once) in the link list, the calls
`AssembleSystem` makes on that joint are, in this order, `ConstraintsBiReset`,
`ConstraintsBiLoad_C` with factor `1 / step`, `ConstraintsBiLoad_Ct` with
factor 1, `VariablesQbLoadSpeed`, `VariablesFbIncrementMq`,
`ConstraintsLoadJacobians`, `ConstraintsFbLoadForces` with factor `step`, and
then its injection. -/
theorem AssembleSystem_link_calls (sys : ChSystemParallelNSC) (l : ChLink)
    (_hstep : 0 < sys.step) (hl : sys.linklist.count l = 1) (hwf : contactsInRange sys) :
    ∃ t, AssembleSystem sys = some t ∧
      callsOn (Receiver.link l) t =
        [ Method.ConstraintsBiReset,
          Method.ConstraintsBiLoad_C (1 / sys.step) sys.max_penetration_recovery_speed true,
          Method.ConstraintsBiLoad_Ct 1,
          Method.VariablesQbLoadSpeed,
          Method.VariablesFbIncrementMq,
          Method.ConstraintsLoadJacobians,
          Method.ConstraintsFbLoadForces sys.step,
          Method.InjectConstraints ] := by
  obtain ⟨t, ht, _, hr, _⟩ := AssembleSystem_observed sys hwf
  refine ⟨t, ht, ?_⟩
  rw [hr _ (by simp) (by simp) (by simp), callsOn_link_after sys l hl]

/-- Witness of C6: the second joint of `sampleSystem`, step 1/100. -/
theorem AssembleSystem_link_calls_witness :
    ∃ t, AssembleSystem sampleSystem = some t ∧
      callsOn (Receiver.link ⟨21⟩) t =
        [ Method.ConstraintsBiReset,
          Method.ConstraintsBiLoad_C (1 / (1 / 100)) (6 / 10) true,
          Method.ConstraintsBiLoad_Ct 1,
          Method.VariablesQbLoadSpeed,
          Method.VariablesFbIncrementMq,
          Method.ConstraintsLoadJacobians,
          Method.ConstraintsFbLoadForces (1 / 100),
          Method.InjectConstraints ] :=
  AssembleSystem_link_calls sampleSystem ⟨21⟩ (by norm_num [sampleSystem]) (by decide) (by decide)

/-- C7, the claim fails: on `sampleSystem` the function returns, and
`ConstraintsBiLoad_Ct` with factor 1 is not applied to the contact container
exactly once: it is applied to it zero times, as it is with any other factor. -/
theorem AssembleSystem_contact_Ct_counterexample :
    ∃ t, AssembleSystem sampleSystem = some t ∧
      (callsOn Receiver.contact_container t).count (Method.ConstraintsBiLoad_Ct 1) ≠ 1 ∧
      (callsOn Receiver.contact_container t).count (Method.ConstraintsBiLoad_Ct 1) = 0 ∧
      ∀ factor, Method.ConstraintsBiLoad_Ct factor ∉ callsOn Receiver.contact_container t := by
  obtain ⟨t, ht, _, _, hc⟩ := AssembleSystem_observed sampleSystem (by decide)
  have hnot : ∀ factor,
      Method.ConstraintsBiLoad_Ct factor ∉ callsOn Receiver.contact_container t := by
    intro factor hmem
    have hin : Method.ConstraintsBiLoad_Ct factor ∈
        (callsOn Receiver.contact_container t).filter (fun m => !isAddContactProtocol m) :=
      List.mem_filter.mpr ⟨hmem, rfl⟩
    rw [hc, callsOn_contact_after] at hin
    simp at hin
  have hzero : (callsOn Receiver.contact_container t).count (Method.ConstraintsBiLoad_Ct 1) = 0 :=
    List.count_eq_zero.mpr (hnot 1)
  exact ⟨t, ht, by rw [hzero]; decide, hzero, hnot⟩

/-- C7 as amended: outside the contact replay, the contact container receives
exactly `ConstraintsBiReset`, `ConstraintsBiLoad_C` with factor `1 / step`,
`ConstraintsFbLoadForces` with factor `step`, `ConstraintsLoadJacobians` and
then `InjectConstraints`, each once and in this order; `ConstraintsBiLoad_Ct` is
not called on it. -/
theorem AssembleSystem_contact_calls (sys : ChSystemParallelNSC) (hwf : contactsInRange sys) :
    ∃ t, AssembleSystem sys = some t ∧
      (callsOn Receiver.contact_container t).filter (fun m => !isAddContactProtocol m) =
        [ Method.ConstraintsBiReset,
          Method.ConstraintsBiLoad_C (1 / sys.step) sys.max_penetration_recovery_speed true,
          Method.ConstraintsFbLoadForces sys.step,
          Method.ConstraintsLoadJacobians,
          Method.InjectConstraints ] ∧
      ∀ factor, Method.ConstraintsBiLoad_Ct factor ∉ callsOn Receiver.contact_container t := by
  obtain ⟨t, ht, _, _, hc⟩ := AssembleSystem_observed sys hwf
  refine ⟨t, ht, ?_, ?_⟩
  · rw [hc, callsOn_contact_after]
  · intro factor hmem
    have hin : Method.ConstraintsBiLoad_Ct factor ∈
        (callsOn Receiver.contact_container t).filter (fun m => !isAddContactProtocol m) :=
      List.mem_filter.mpr ⟨hmem, rfl⟩
    rw [hc, callsOn_contact_after] at hin
    simp at hin

/-- Witness of C7 as amended, on `sampleSystem`. -/
theorem AssembleSystem_contact_calls_witness :
    ∃ t, AssembleSystem sampleSystem = some t ∧
      (callsOn Receiver.contact_container t).filter (fun m => !isAddContactProtocol m) =
        [ Method.ConstraintsBiReset,
          Method.ConstraintsBiLoad_C (1 / (1 / 100)) (6 / 10) true,
          Method.ConstraintsFbLoadForces (1 / 100),
          Method.ConstraintsLoadJacobians,
          Method.InjectConstraints ] ∧
      ∀ factor, Method.ConstraintsBiLoad_Ct factor ∉ callsOn Receiver.contact_container t :=
  AssembleSystem_contact_calls sampleSystem (by decide)

/-- C8, the code at the failing input: the one other physics item of
`sampleSystem` receives the loads of a joint, `VariablesFbLoadForces` and
`KRMmatricesLoad`, but `ConstraintsBiReset` is never called on it. -/
theorem AssembleSystem_item_not_reset :
    ∃ t, AssembleSystem sampleSystem = some t ∧
      callsOn (Receiver.item ⟨30⟩) t =
        [ Method.VariablesFbLoadForces (1 / 100),
          Method.VariablesQbLoadSpeed,
          Method.VariablesFbIncrementMq,
          Method.ConstraintsBiLoad_C (1 / (1 / 100)) (6 / 10) true,
          Method.ConstraintsBiLoad_Ct 1,
          Method.ConstraintsLoadJacobians,
          Method.KRMmatricesLoad (1 / 100 * (1 / 100)) (1 / 100) 1,
          Method.ConstraintsFbLoadForces (1 / 100) ] ∧
      Method.ConstraintsBiReset ∉ callsOn (Receiver.item ⟨30⟩) t ∧
      Method.ConstraintsBiReset ∈ callsOn (Receiver.link ⟨20⟩) t := by
  obtain ⟨t, ht, _, hr, _⟩ := AssembleSystem_observed sampleSystem (by decide)
  have hitem := hr (Receiver.item ⟨30⟩) (by simp) (by simp) (by simp)
  have hlink := hr (Receiver.link ⟨20⟩) (by simp) (by simp) (by simp)
  rw [callsOn_item_after sampleSystem ⟨30⟩ (by decide)] at hitem
  rw [callsOn_link_after sampleSystem ⟨20⟩ (by decide)] at hlink
  refine ⟨t, ht, hitem, ?_, ?_⟩
  · rw [hitem]
    simp
  · rw [hlink]
    simp

/-- C9, the code at the failing input: the other physics item of `sampleSystem`
is in the system, yet no injection call is made for it, and the calls that
reach the descriptor are those of the two bodies, the two joints and the
contact container. -/
theorem AssembleSystem_item_not_injected :
    ∃ t, AssembleSystem sampleSystem = some t ∧
      (⟨30⟩ : ChPhysicsItem) ∈ sampleSystem.otherphysicslist ∧
      Method.InjectVariables ∉ callsOn (Receiver.item ⟨30⟩) t ∧
      Method.InjectConstraints ∉ callsOn (Receiver.item ⟨30⟩) t ∧
      t.filter onDescriptor =
        [ ⟨Receiver.descriptor, Method.BeginInsertion⟩,
          ⟨Receiver.body ⟨10, some ⟨[⟨⟨3 / 10, 0⟩⟩]⟩⟩, Method.InjectVariables⟩,
          ⟨Receiver.body ⟨11, some ⟨[⟨⟨1 / 2, 0⟩⟩]⟩⟩, Method.InjectVariables⟩,
          ⟨Receiver.link ⟨20⟩, Method.InjectConstraints⟩,
          ⟨Receiver.link ⟨21⟩, Method.InjectConstraints⟩,
          ⟨Receiver.contact_container, Method.InjectConstraints⟩,
          ⟨Receiver.descriptor, Method.EndInsertion⟩ ] := by
  obtain ⟨t, ht, hd, hr, _⟩ := AssembleSystem_observed sampleSystem (by decide)
  have hitem := hr (Receiver.item ⟨30⟩) (by simp) (by simp) (by simp)
  rw [callsOn_item_after sampleSystem ⟨30⟩ (by decide)] at hitem
  refine ⟨t, ht, by decide, ?_, ?_, ?_⟩
  · rw [hitem]
    simp
  · rw [hitem]
    simp
  · rw [hd, onDescriptor_after]
    rfl

/-! ## The stages of a step -/

/-- C10: for every system, the stages of `SolveSystem` are, in this order and
each exactly once, the timer-registry `Reset`, `Setup`, `Update`, the collision
system's `Run`, its `ReportContacts` into the contact container, and the
solver's `RunTimeStep`, which is the last stage. -/
theorem SolveSystem_stage_order (sys : ChSystemParallelNSC) :
    stages (SolveSystem sys) =
      [ ⟨Receiver.system_timer, Method.Reset⟩,
        ⟨Receiver.system, Method.Setup⟩,
        ⟨Receiver.system, Method.Update⟩,
        ⟨Receiver.collision_system, Method.Run⟩,
        ⟨Receiver.collision_system, Method.ReportContacts⟩,
        ⟨Receiver.solver, Method.RunTimeStep⟩ ] ∧
    (stages (SolveSystem sys)).getLast? = some ⟨Receiver.solver, Method.RunTimeStep⟩ ∧
    ∀ c ∈ stages (SolveSystem sys), (SolveSystem sys).count c = 1 := by
  refine ⟨rfl, rfl, ?_⟩
  intro c hc
  have hs : stages (SolveSystem sys) =
      [ ⟨Receiver.system_timer, Method.Reset⟩,
        ⟨Receiver.system, Method.Setup⟩,
        ⟨Receiver.system, Method.Update⟩,
        ⟨Receiver.collision_system, Method.Run⟩,
        ⟨Receiver.collision_system, Method.ReportContacts⟩,
        ⟨Receiver.solver, Method.RunTimeStep⟩ ] := rfl
  rw [hs] at hc
  simp only [List.mem_cons, List.mem_singleton, List.not_mem_nil, or_false] at hc
  rcases hc with rfl | rfl | rfl | rfl | rfl | rfl <;> simp [SolveSystem]

/-! ## The timers of a step -/

/-- C11, the claim fails: in `SolveSystem` no timer is started and stopped
around `Setup` alone.  No timer brackets exactly the stage `Setup`; the one
timer running during `Setup` is `step`, and it encloses every other phase too. -/
theorem SolveSystem_Setup_timer_counterexample :
    (¬ ∃ name, stages (timedBy name (SolveSystem sampleSystem)) =
        [⟨Receiver.system, Method.Setup⟩]) ∧
    (∀ name, (⟨Receiver.system, Method.Setup⟩ : Call) ∈ timedBy name (SolveSystem sampleSystem) →
      name = TimerName.step) ∧
    stages (timedBy TimerName.step (SolveSystem sampleSystem)) =
      [ ⟨Receiver.system, Method.Setup⟩,
        ⟨Receiver.system, Method.Update⟩,
        ⟨Receiver.collision_system, Method.Run⟩,
        ⟨Receiver.collision_system, Method.ReportContacts⟩,
        ⟨Receiver.solver, Method.RunTimeStep⟩ ] := by
  refine ⟨?_, ?_, by decide⟩
  · rintro ⟨name, h⟩
    cases name <;> revert h <;> decide
  · intro name h
    cases name <;> first | rfl | (revert h; decide)

/-- C11 as amended: in `SolveSystem`, `Update`, the collision phase (`Run` and
`ReportContacts`) and the solve (`RunTimeStep`) each run between the start and
the matching stop of a timer of their own (`update`, `collision`, `advance`)
that encloses no other phase; `Setup` has no timer of its own and runs inside
the `step` timer only, which encloses all the phases; every timer that is
started is started once, stopped once, and stopped after its start, and the
stop of the `step` timer is the last call. -/
theorem SolveSystem_timers (sys : ChSystemParallelNSC) :
    stages (timedBy TimerName.update (SolveSystem sys)) = [⟨Receiver.system, Method.Update⟩] ∧
    stages (timedBy TimerName.collision (SolveSystem sys)) =
      [ ⟨Receiver.collision_system, Method.Run⟩,
        ⟨Receiver.collision_system, Method.ReportContacts⟩ ] ∧
    stages (timedBy TimerName.advance (SolveSystem sys)) = [⟨Receiver.solver, Method.RunTimeStep⟩] ∧
    stages (timedBy TimerName.step (SolveSystem sys)) =
      [ ⟨Receiver.system, Method.Setup⟩,
        ⟨Receiver.system, Method.Update⟩,
        ⟨Receiver.collision_system, Method.Run⟩,
        ⟨Receiver.collision_system, Method.ReportContacts⟩,
        ⟨Receiver.solver, Method.RunTimeStep⟩ ] ∧
    (∀ name, (⟨Receiver.system, Method.Setup⟩ : Call) ∈ timedBy name (SolveSystem sys) →
      name = TimerName.step) ∧
    (∀ name,
      (SolveSystem sys).count ⟨Receiver.system_timer, Method.start name⟩ = 1 ∧
      (SolveSystem sys).count ⟨Receiver.system_timer, Method.stop name⟩ = 1 ∧
      stoppedAfterStart name (SolveSystem sys) = true) ∧
    (SolveSystem sys).getLast? = some ⟨Receiver.system_timer, Method.stop TimerName.step⟩ := by
  have hsys : SolveSystem sys = SolveSystem sampleSystem := rfl
  rw [hsys]
  refine ⟨by decide, by decide, by decide, by decide, ?_, ?_, rfl⟩
  · intro name h
    cases name <;> first | rfl | (revert h; decide)
  · intro name
    cases name <;> decide

/-! ## Material surface data -/

/-- C12: for an index within both material arrays, if the body has a collision
model with a first shape, `UpdateMaterialSurfaceData index body` sets
`sliding_friction[index]` and `cohesion[index]` to the sliding friction and the
cohesion of the material of shape 0 and leaves every other entry, both lengths
and the rest of the data manager unchanged; if the body has no collision model,
or a model without shapes, the data manager is left unchanged. -/
theorem UpdateMaterialSurfaceData_effect (dm : ChParallelDataManager) (index : Nat)
    (body : ChBody) (hf : index < dm.host_data.sliding_friction.length)
    (hc : index < dm.host_data.cohesion.length) :
    (∀ model shape rest, body.CollisionModel = some model → model.shapes = shape :: rest →
      ∃ dm', UpdateMaterialSurfaceData dm index body = Except.ok dm' ∧
        dm'.host_data.sliding_friction[index]? = some shape.Material.Kfriction ∧
        dm'.host_data.cohesion[index]? = some shape.Material.Cohesion ∧
        (∀ j, j ≠ index →
          dm'.host_data.sliding_friction[j]? = dm.host_data.sliding_friction[j]? ∧
          dm'.host_data.cohesion[j]? = dm.host_data.cohesion[j]?) ∧
        dm'.host_data.sliding_friction.length = dm.host_data.sliding_friction.length ∧
        dm'.host_data.cohesion.length = dm.host_data.cohesion.length ∧
        dm' = { dm with
          host_data := { dm.host_data with
            sliding_friction := dm'.host_data.sliding_friction
            cohesion := dm'.host_data.cohesion } }) ∧
    ((body.CollisionModel = none ∨
        ∃ model, body.CollisionModel = some model ∧ model.shapes = []) →
      UpdateMaterialSurfaceData dm index body = Except.ok dm) := by
  constructor
  · intro model shape rest hm hs
    refine ⟨{ dm with
        host_data := { dm.host_data with
          sliding_friction := dm.host_data.sliding_friction.set index shape.Material.Kfriction
          cohesion := dm.host_data.cohesion.set index shape.Material.Cohesion } },
      ?_, ?_, ?_, ?_, ?_, ?_, rfl⟩
    · simp [UpdateMaterialSurfaceData, hm, hs, writeAt, hf, hc]
      rfl
    · simp [List.getElem?_set, hf]
    · simp [List.getElem?_set, hc]
    · intro j hj
      simp [List.getElem?_set, Ne.symm hj]
    · simp
    · simp
  · rintro (hnone | ⟨model, hm, hs⟩)
    · simp [UpdateMaterialSurfaceData, hnone]
    · simp [UpdateMaterialSurfaceData, hm, hs]

/-- Witness of C12: after a third slot is added to the arrays of
`sampleManager`, the update of index 2 from the first body of `sampleSystem`
stores its friction 3/10 and cohesion 0 there and keeps slots 0 and 1. -/
theorem UpdateMaterialSurfaceData_effect_witness :
    ∃ dm', UpdateMaterialSurfaceData (AddMaterialSurfaceData sampleManager ⟨11, none⟩) 2
        ⟨10, some ⟨[⟨⟨3 / 10, 0⟩⟩]⟩⟩ = Except.ok dm' ∧
      dm'.host_data.sliding_friction[2]? = some (3 / 10) ∧
      dm'.host_data.cohesion[2]? = some 0 ∧
      dm'.host_data.sliding_friction[1]? = some 0 ∧
      dm'.host_data.sliding_friction.length = 3 ∧
      dm'.host_data.cohesion.length = 3 := by
  obtain ⟨dm', h1, h2, h3, h4, h5, h6, _⟩ :=
    (UpdateMaterialSurfaceData_effect (AddMaterialSurfaceData sampleManager ⟨11, none⟩) 2
      ⟨10, some ⟨[⟨⟨3 / 10, 0⟩⟩]⟩⟩ (by decide) (by decide)).1
      ⟨[⟨⟨3 / 10, 0⟩⟩]⟩ ⟨⟨3 / 10, 0⟩⟩ [] rfl rfl
  refine ⟨dm', h1, h2, h3, ?_, ?_, ?_⟩
  · rw [(h4 1 (by decide)).1]
    rfl
  · rw [h5]
    rfl
  · rw [h6]
    rfl

/-! ## The contact replay of the assembly -/

/-- C13, the claim fails: with `num_rigid_contacts = 2 ^ 31` and every contact
array holding that many entries, `AssembleSystem` returns and makes no
`AddContact` call at all: the loop bound `(signed) num_rigid_contacts` is
negative, so the replay is `BeginAddContact` followed by `EndAddContact`. -/
theorem AssembleSystem_contact_replay_counterexample :
    contactsInRange manyContactsSystem ∧
    manyContactsSystem.data_manager.num_rigid_contacts = 2147483648 ∧
    ∃ t, AssembleSystem manyContactsSystem = some t ∧
      t.filter (fun c => isAddContactProtocol c.method) =
        [ ⟨Receiver.contact_container, Method.BeginAddContact⟩,
          ⟨Receiver.contact_container, Method.EndAddContact⟩ ] ∧
      ∀ info, (⟨Receiver.contact_container, Method.AddContact info⟩ : Call) ∉ t := by
  have hwf : contactsInRange manyContactsSystem := by
    refine ⟨?_, ?_, ?_, ?_, ?_, ?_, ?_⟩
    · show 2147483648 ≤ (List.replicate 2147483648 (⟨0, 1⟩ : vec2)).length
      rw [List.length_replicate]
    · show 2147483648 ≤ (List.replicate 2147483648 (⟨0, 0, 1⟩ : real3)).length
      rw [List.length_replicate]
    · show 2147483648 ≤ (List.replicate 2147483648 (⟨0, 0, 1⟩ : real3)).length
      rw [List.length_replicate]
    · show 2147483648 ≤ (List.replicate 2147483648 (⟨0, 0, -1⟩ : real3)).length
      rw [List.length_replicate]
    · show 2147483648 ≤ (List.replicate 2147483648 (0 : real)).length
      rw [List.length_replicate]
    · show 2147483648 ≤ (List.replicate 2147483648 (1 / 2 : real)).length
      rw [List.length_replicate]
    · intro cd_pair hmem
      have hrep : cd_pair ∈ List.replicate 2147483648 (⟨0, 1⟩ : vec2) := List.mem_of_mem_take hmem
      have hp : cd_pair = ⟨0, 1⟩ := List.eq_of_mem_replicate hrep
      subst hp
      exact ⟨by decide, by decide, by decide, by decide⟩
  have hzero : (toSigned manyContactsSystem.data_manager.num_rigid_contacts).toNat = 0 := by
    show (toSigned 2147483648).toNat = 0
    unfold toSigned uint
    norm_num
  have hrep : replayContacts manyContactsSystem = some [] := by
    unfold replayContacts
    rw [hzero]
    rfl
  have ht : AssembleSystem manyContactsSystem = some
      ([ ⟨Receiver.system, Method.Setup⟩,
         ⟨Receiver.collision_system, Method.Run⟩,
         ⟨Receiver.collision_system, Method.ReportContacts⟩,
         ⟨Receiver.system, Method.ChSystem_Update⟩,
         ⟨Receiver.contact_container, Method.BeginAddContact⟩ ]
       ++ []
       ++ [⟨Receiver.contact_container, Method.EndAddContact⟩]
       ++ assembleAfterContacts manyContactsSystem) := by
    unfold AssembleSystem
    rw [hrep]
    rfl
  have hfilter := protocol_calls manyContactsSystem [] (by simp)
  refine ⟨hwf, rfl, _, ht, hfilter, ?_⟩
  intro info hmem
  have hin : (⟨Receiver.contact_container, Method.AddContact info⟩ : Call) ∈
      List.filter (fun c => isAddContactProtocol c.method)
        ([ ⟨Receiver.system, Method.Setup⟩,
           ⟨Receiver.collision_system, Method.Run⟩,
           ⟨Receiver.collision_system, Method.ReportContacts⟩,
           ⟨Receiver.system, Method.ChSystem_Update⟩,
           ⟨Receiver.contact_container, Method.BeginAddContact⟩ ]
         ++ []
         ++ [⟨Receiver.contact_container, Method.EndAddContact⟩]
         ++ assembleAfterContacts manyContactsSystem) :=
    List.mem_filter.mpr ⟨hmem, rfl⟩
  rw [hfilter] at hin
  simp at hin

/-- C13 as amended: with `n = num_rigid_contacts` below `2 ^ 31` (0 included) and
the contact arrays in range, the calls of the replay protocol that
`AssembleSystem` makes on the contact container are exactly one
`BeginAddContact`, then `n` calls `AddContact`, then one `EndAddContact`; the
`i`-th `AddContact` carries the collision models of bodies
`bids_rigid_rigid[i].x` and `.y`, the normal `norm_rigid_rigid[i]`, the points
`cpta_rigid_rigid[i] + pos_rigid[bids.x]` and
`cptb_rigid_rigid[i] + pos_rigid[bids.y]`, the distance `dpth_rigid_rigid[i]`
and the effective radius `erad_rigid_rigid[i]`. -/
theorem AssembleSystem_contact_replay (sys : ChSystemParallelNSC)
    (hn : sys.data_manager.num_rigid_contacts < 2 ^ 31) (hwf : contactsInRange sys) :
    ∃ t added, AssembleSystem sys = some t ∧
      t.filter (fun c => isAddContactProtocol c.method) =
        [⟨Receiver.contact_container, Method.BeginAddContact⟩] ++ added
          ++ [⟨Receiver.contact_container, Method.EndAddContact⟩] ∧
      added.length = sys.data_manager.num_rigid_contacts ∧
      ∀ i, i < sys.data_manager.num_rigid_contacts →
        ∃ cd_pair bodyA bodyB norm cpta cptb posA posB dpth erad,
          sys.data_manager.host_data.bids_rigid_rigid[i]? = some cd_pair ∧
          sys.bodylist[cd_pair.x]? = some bodyA ∧
          sys.bodylist[cd_pair.y]? = some bodyB ∧
          sys.data_manager.host_data.norm_rigid_rigid[i]? = some norm ∧
          sys.data_manager.host_data.cpta_rigid_rigid[i]? = some cpta ∧
          sys.data_manager.host_data.cptb_rigid_rigid[i]? = some cptb ∧
          sys.data_manager.host_data.pos_rigid[cd_pair.x]? = some posA ∧
          sys.data_manager.host_data.pos_rigid[cd_pair.y]? = some posB ∧
          sys.data_manager.host_data.dpth_rigid_rigid[i]? = some dpth ∧
          sys.data_manager.host_data.erad_rigid_rigid[i]? = some erad ∧
          added[i]? = some ⟨Receiver.contact_container, Method.AddContact
            { modelA := bodyA.CollisionModel
              modelB := bodyB.CollisionModel
              vN := ⟨norm.x, norm.y, norm.z⟩
              vpA := ⟨cpta.x + posA.x, cpta.y + posA.y, cpta.z + posA.z⟩
              vpB := ⟨cptb.x + posB.x, cptb.y + posB.y, cptb.z + posB.z⟩
              distance := dpth
              eff_radius := erad }⟩ := by
  obtain ⟨added, hrep, hadd⟩ := replayContacts_some sys hwf
  obtain ⟨hlen, hget⟩ := replayContacts_getElem sys added hrep
  rw [toSigned_toNat_of_lt _ hn] at hlen hget
  have ht : AssembleSystem sys = some
      ([ ⟨Receiver.system, Method.Setup⟩,
         ⟨Receiver.collision_system, Method.Run⟩,
         ⟨Receiver.collision_system, Method.ReportContacts⟩,
         ⟨Receiver.system, Method.ChSystem_Update⟩,
         ⟨Receiver.contact_container, Method.BeginAddContact⟩ ]
       ++ added
       ++ [⟨Receiver.contact_container, Method.EndAddContact⟩]
       ++ assembleAfterContacts sys) := by
    simp [AssembleSystem, hrep]
  refine ⟨_, added, ht, protocol_calls sys added hadd, hlen, ?_⟩
  intro i hi
  obtain ⟨cd_pair, bodyA, bodyB, norm, cpta, cptb, posA, posB, dpth, erad,
    e1, e2, e3, e4, e5, e6, e7, e8, e9, e10, hinfo⟩ := icontact_entries sys hwf i hi
  refine ⟨cd_pair, bodyA, bodyB, norm, cpta, cptb, posA, posB, dpth, erad,
    e1, e2, e3, e4, e5, e6, e7, e8, e9, e10, ?_⟩
  rw [← hget i hi, hinfo]
  rfl

/-- Witness of C13 as amended, on `sampleSystem`: one contact between body 0 (at
the origin) and body 1 (at height 2); both stored offsets become the world
point `(0, 0, 1)`. -/
theorem AssembleSystem_contact_replay_witness :
    ∃ t, AssembleSystem sampleSystem = some t ∧
      t.filter (fun c => isAddContactProtocol c.method) =
        [ ⟨Receiver.contact_container, Method.BeginAddContact⟩,
          ⟨Receiver.contact_container, Method.AddContact
            { modelA := some ⟨[⟨⟨3 / 10, 0⟩⟩]⟩
              modelB := some ⟨[⟨⟨1 / 2, 0⟩⟩]⟩
              vN := ⟨0, 0, 1⟩
              vpA := ⟨0, 0, 1⟩
              vpB := ⟨0, 0, 1⟩
              distance := 0
              eff_radius := 1 / 2 }⟩,
          ⟨Receiver.contact_container, Method.EndAddContact⟩ ] := by
  obtain ⟨t, added, ht, hfilter, hlen, hrec⟩ :=
    AssembleSystem_contact_replay sampleSystem (by decide) (by decide)
  refine ⟨t, ht, ?_⟩
  obtain ⟨cd_pair, bodyA, bodyB, norm, cpta, cptb, posA, posB, dpth, erad,
    e1, e2, e3, e4, e5, e6, e7, e8, e9, e10, h0⟩ := hrec 0 (by decide)
  simp only [sampleSystem, sampleManager, sampleHost, List.getElem?_cons_zero,
    Option.some.injEq] at e1
  subst e1
  simp only [sampleSystem, sampleManager, sampleHost, List.getElem?_cons_zero,
    List.getElem?_cons_succ, Option.some.injEq] at e2 e3 e4 e5 e6 e7 e8 e9 e10
  subst e2 e3 e4 e5 e6 e7 e8 e9 e10
  have hlen1 : added.length = 1 := hlen
  obtain ⟨c, rfl⟩ := List.length_eq_one.mp hlen1
  simp only [List.getElem?_cons_zero, Option.some.injEq] at h0
  rw [hfilter, h0]
  norm_num

/-! ## Safety of the queries after the recovery -/

/-- C14, the claim fails: with no contact and 715827883 bodies the recovery
ends normally with the cache marked current, but the cache has 2 entries, so
for body 0, an index below `num_rigid_bodies`, entry 5 is outside `Fc` and the
force query reads past its end. -/
theorem queries_safe_after_recovery_counterexample :
    wrapManager.num_rigid_contacts = 0 ∧ 0 < wrapManager.num_rigid_bodies ∧
    ∃ dm', CalculateContactForces wrapManager = Outcome.done dm' ∧
      dm'.Fc_current = true ∧
      ¬ (6 * 0 + 5 < dm'.host_data.Fc.length) ∧
      GetBodyContactForce dm' 0 = Except.error Fault.out_of_range ∧
      GetBodyContactTorque dm' 0 = Except.error Fault.out_of_range := by
  refine ⟨rfl, by decide, ?_⟩
  obtain ⟨dm', hdone, hcur, hFc, _⟩ := recovery_no_contact wrapManager rfl
  have hFc2 : dm'.host_data.Fc = [0, 0] := by
    rw [hFc]
    have hu : uint (6 * wrapManager.num_rigid_bodies) = 2 := by decide
    rw [hu]
    rfl
  refine ⟨dm', hdone, hcur, ?_, ?_, ?_⟩
  · rw [hFc2]
    decide
  · simp only [GetBodyContactForce, hcur, hFc2]
    rfl
  · simp only [GetBodyContactTorque, hcur, hFc2]
    rfl

/-- C14 as amended: when `num_rigid_contacts` is 0 and `6 * num_rigid_bodies` is
below `2 ^ 32`, or `D` has at least `6 * num_rigid_bodies` rows and
`num_unilaterals` columns and `gamma` at least `num_unilaterals` entries,
`CalculateContactForces` ends normally and afterwards, for every
`i < num_rigid_bodies`, the indices `6i .. 6i+5` lie within `Fc` and
`GetBodyContactForce i` and `GetBodyContactTorque i` return a value: the
assertion on `Fc_current` holds and no read is out of range. -/
theorem queries_safe_after_recovery (dm : ChParallelDataManager)
    (h : (dm.num_rigid_contacts = 0 ∧ 6 * dm.num_rigid_bodies < 2 ^ 32) ∨
      (6 * dm.num_rigid_bodies ≤ dm.host_data.D.rows ∧
        dm.num_unilaterals ≤ dm.host_data.D.columns ∧
        dm.num_unilaterals ≤ dm.host_data.gamma.length)) :
    ∃ dm', CalculateContactForces dm = Outcome.done dm' ∧
      dm'.Fc_current = true ∧
      ∀ i, i < dm.num_rigid_bodies →
        6 * i + 5 < dm'.host_data.Fc.length ∧
        (∃ v, GetBodyContactForce dm' i = Except.ok (v, dm')) ∧
        (∃ v, GetBodyContactTorque dm' i = Except.ok (v, dm')) ∧
        GetBodyContactForce dm' i ≠ Except.error Fault.assertion_failed ∧
        GetBodyContactForce dm' i ≠ Except.error Fault.out_of_range ∧
        GetBodyContactTorque dm' i ≠ Except.error Fault.assertion_failed ∧
        GetBodyContactTorque dm' i ≠ Except.error Fault.out_of_range := by
  have hres : ∃ dm', CalculateContactForces dm = Outcome.done dm' ∧ dm'.Fc_current = true ∧
      dm'.host_data.Fc.length = 6 * dm.num_rigid_bodies := by
    by_cases h0 : dm.num_rigid_contacts = 0
    · have hfit : 6 * dm.num_rigid_bodies < 2 ^ 32 := by
        rcases h with ⟨_, hfit⟩ | ⟨hrows, _, _⟩
        · exact hfit
        · exact Nat.lt_of_le_of_lt hrows dm.host_data.D.rows_fit
      obtain ⟨dm', hdone, hcur, hFc, _⟩ := recovery_no_contact dm h0
      exact ⟨dm', hdone, hcur, by rw [hFc, List.length_replicate, uint_of_lt _ hfit]⟩
    · rcases h with ⟨hz, _⟩ | ⟨hrows, hcols, hg⟩
      · exact absurd hz h0
      · obtain ⟨dm', hdone, hcur, hFc, _⟩ := recovery_with_contacts dm h0 hrows hcols hg
        exact ⟨dm', hdone, hcur, by rw [hFc]; simp [divScalar]⟩
  obtain ⟨dm', hdone, hcur, hlen⟩ := hres
  refine ⟨dm', hdone, hcur, ?_⟩
  intro i hi
  have hin : 6 * i + 5 < dm'.host_data.Fc.length := by omega
  have hF := force_of_current dm' i hcur hin
  have hT := torque_of_current dm' i hcur hin
  refine ⟨hin, ⟨_, hF⟩, ⟨_, hT⟩, ?_, ?_, ?_, ?_⟩
  · rw [hF]
    exact fun e => by cases e
  · rw [hF]
    exact fun e => by cases e
  · rw [hT]
    exact fun e => by cases e
  · rw [hT]
    exact fun e => by cases e

/-- Witness of C14 as amended, on `sampleManager` (one contact, buffers large
enough, a stale three-entry cache not marked current): after the recovery both
queries for body 0 return a value. -/
theorem queries_safe_after_recovery_witness :
    ∃ dm', CalculateContactForces sampleManager = Outcome.done dm' ∧
      dm'.Fc_current = true ∧
      6 * 0 + 5 < dm'.host_data.Fc.length ∧
      (∃ v, GetBodyContactForce dm' 0 = Except.ok (v, dm')) ∧
      (∃ v, GetBodyContactTorque dm' 0 = Except.ok (v, dm')) := by
  obtain ⟨dm', h1, h2, h3⟩ := queries_safe_after_recovery sampleManager
    (Or.inr ⟨by simp [sampleManager, sampleHost], by simp [sampleManager, sampleHost],
      by decide⟩)
  obtain ⟨h4, h5, h6, _⟩ := h3 0 (by decide)
  exact ⟨dm', h1, h2, h4, h5, h6⟩

end chrono
